import Mathlib

/-!
# CHIP-8 interpreter core: a shallow embedding of `Chip8.h` / `Chip8.cpp`

The C++ class `Chip8` is modelled as a record `State` and every member
function as a function on `State`.

* `byte` / `twoByte` values are natural numbers; every assignment that can
  overflow carries an explicit `% 256` / `% 65536`.
* `std::array<byte, N>` members (`V`, `memory`, `keys`) are total functions on
  `Nat` of which only the indices below `N` are meaningful; each access whose
  index is not a decoded nibble is checked against `N` and an access outside
  the array (undefined behaviour in C++) is the fault `outOfBounds`.
* `std::vector<byte> display` is a `List Nat` (its size changes in `initialize`).
* `std::stack<twoByte>` is a `List Nat` with the top at the head; `top()` on an
  empty stack (undefined behaviour) is the fault `emptyStack`.
* `std::map<key, std::function<void()>>::operator[]` on a key that is not in the
  table yields an empty `std::function`, whose call throws
  `std::bad_function_call`: the fault `badFunctionCall`.
* `randomNext()` is not deterministic; the value it returns in a cycle is the
  extra argument `rnd` of the cycle.
-/

namespace Chip8

/-! ## System constants (`Chip8.h`) -/

def c_stackLevels : Nat := 16
def c_numRegisters : Nat := 16
def c_memorySize : Nat := 4096
def c_displayWidth : Nat := 64
def c_displayHeight : Nat := 32
def c_displaySize : Nat := c_displayWidth * c_displayHeight
def c_numKeys : Nat := 16
def c_fontSetSize : Nat := 16 * 5
def MSB : Nat := 0x80
def LSB : Nat := 0x01

/-- Ways in which the C++ code leaves defined behaviour or throws. -/
inductive Fault where
  | outOfBounds
  | emptyStack
  | badFunctionCall
  deriving DecidableEq

/-- Data members of `class Chip8` (the random engine apart). -/
structure State where
  stack : List Nat
  V : Nat → Nat
  memory : Nat → Nat
  keys : Nat → Bool
  display : List Nat
  opCode : Nat
  NNN : Nat
  NN : Nat
  N : Nat
  X : Nat
  Y : Nat
  PC : Nat
  I : Nat
  delayTimer : Nat
  soundTimer : Nat
  drawFlag : Bool

/-- Assignment `a[i] = v` on an array modelled as a function. -/
def setAt (a : Nat → Nat) (i v : Nat) : Nat → Nat :=
  fun j => if j = i then v else a j

/-- The conditional expression `c ? 1 : 0`. -/
def flag (c : Bool) : Nat := if c then 1 else 0

/-! ## `Chip8::fetchOpcode` -/

def fetchOpcode (s : State) : Except Fault State :=
  if s.PC + 1 < c_memorySize then
    let opCode := ((s.memory s.PC <<< 8) ||| s.memory (s.PC + 1)) % 65536
    .ok { s with
      opCode := opCode
      NNN := opCode &&& 0x0FFF
      NN := opCode &&& 0x00FF
      N := opCode &&& 0x000F
      X := (opCode &&& 0x0F00) >>> 8
      Y := (opCode &&& 0x00F0) >>> 4 }
  else .error .outOfBounds

/-! ## `Chip8::draw` -/

/-- Body of the inner loop of `draw` for one `xPos`. -/
def drawPixel (rowDrawStart spritePos1D : Nat) (s : State) (xPos : Nat) :
    Except Fault State :=
  if rowDrawStart &&& (MSB >>> xPos) ≠ 0 then
    let pixelPos := (spritePos1D + xPos) % c_displaySize
    match s.display[pixelPos]? with
    | none => .error .outOfBounds
    | some px =>
      let V1 := if px = 0xFF then setAt s.V 0xF 1 else s.V
      .ok { s with V := V1, display := s.display.set pixelPos (px ^^^ 0xFF) }
  else .ok s

/-- Body of the outer loop of `draw` for one `yPos`. -/
def drawRow (s : State) (yPos : Nat) : Except Fault State :=
  if s.I + yPos < c_memorySize then
    let rowDrawStart := s.memory (s.I + yPos)
    let spritePos1D := s.V s.X + (s.V s.Y + yPos) * c_displayWidth
    (List.range 8).foldlM (drawPixel rowDrawStart spritePos1D) s
  else .error .outOfBounds

def draw (s : State) : Except Fault State :=
  (List.range s.N).foldlM drawRow { s with V := setAt s.V 0xF 0 }

/-! ## The dispatch tables of `Chip8.h` -/

/-- The table `opCode0Table`, looked up at `key` and called. -/
def opCode0Table (key : Nat) (s : State) : Except Fault State :=
  if key = 0x00E0 then
    .ok { s with display := s.display.map (fun _ => 0), drawFlag := true }
  else if key = 0x00EE then
    match s.stack with
    | [] => .error .emptyStack
    | top :: rest => .ok { s with PC := top, stack := rest }
  else .error .badFunctionCall

/-- The table `opCode8Table`, looked up at `key` and called. -/
def opCode8Table (key : Nat) (s : State) : Except Fault State :=
  if key = 0x0000 then
    .ok { s with V := setAt s.V s.X (s.V s.Y) }
  else if key = 0x0001 then
    .ok { s with V := setAt s.V s.X (s.V s.X ||| s.V s.Y) }
  else if key = 0x0002 then
    .ok { s with V := setAt s.V s.X (s.V s.X &&& s.V s.Y) }
  else if key = 0x0003 then
    .ok { s with V := setAt s.V s.X (s.V s.X ^^^ s.V s.Y) }
  else if key = 0x0004 then
    let V1 := setAt s.V 0xF (flag (decide (s.V s.X + s.V s.Y > 0xFF)))
    .ok { s with V := setAt V1 s.X ((V1 s.X + V1 s.Y) % 256) }
  else if key = 0x0005 then
    let V1 := setAt s.V 0xF (flag (decide (s.V s.X > s.V s.Y)))
    .ok { s with V := setAt V1 s.X ((V1 s.X + 256 - V1 s.Y) % 256) }
  else if key = 0x0006 then
    let V1 := setAt s.V 0xF (flag (decide (s.V s.X &&& LSB ≠ 0)))
    .ok { s with V := setAt V1 s.X (V1 s.X >>> 1) }
  else if key = 0x0007 then
    let V1 := setAt s.V 0xF (flag (decide (s.V s.Y > s.V s.X)))
    .ok { s with V := setAt V1 s.X ((V1 s.Y + 256 - V1 s.X) % 256) }
  else if key = 0x000E then
    let V1 := setAt s.V 0xF (flag (decide (s.V s.X &&& MSB ≠ 0)))
    .ok { s with V := setAt V1 s.X ((V1 s.X <<< 1) % 256) }
  else .error .badFunctionCall

/-- The table `opCodeETable`, looked up at `key` and called. -/
def opCodeETable (key : Nat) (s : State) : Except Fault State :=
  if key = 0x009E then
    if s.V s.X < c_numKeys then
      .ok { s with PC := (s.PC + (if s.keys (s.V s.X) then 4 else 2)) % 65536 }
    else .error .outOfBounds
  else if key = 0x00A1 then
    if s.V s.X < c_numKeys then
      .ok { s with PC := (s.PC + (if !s.keys (s.V s.X) then 4 else 2)) % 65536 }
    else .error .outOfBounds
  else .error .badFunctionCall

/-- `std::copy_n(V.begin(), n, memory.begin() + I)`: element by element. -/
def copyVToMemory (n : Nat) (s : State) : Except Fault State :=
  (List.range n).foldlM
    (fun (t : State) (k : Nat) =>
      if t.I + k < c_memorySize then
        .ok { t with memory := setAt t.memory (t.I + k) (t.V k) }
      else .error .outOfBounds) s

/-- `std::copy_n(memory.begin() + I, n, V.begin())`: element by element. -/
def copyMemoryToV (n : Nat) (s : State) : Except Fault State :=
  (List.range n).foldlM
    (fun (t : State) (k : Nat) =>
      if t.I + k < c_memorySize then
        .ok { t with V := setAt t.V k (t.memory (t.I + k)) }
      else .error .outOfBounds) s

/-- The table `opCodeFTable`, looked up at `key` and called. -/
def opCodeFTable (key : Nat) (s : State) : Except Fault State :=
  if key = 0x0007 then
    .ok { s with V := setAt s.V s.X s.delayTimer, PC := (s.PC + 2) % 65536 }
  else if key = 0x000A then
    match (List.range c_numKeys).find? (fun k => s.keys k) with
    | some k => .ok { s with V := setAt s.V s.X (k % 256), PC := (s.PC + 2) % 65536 }
    | none => .ok s
  else if key = 0x0015 then
    .ok { s with delayTimer := s.V s.X, PC := (s.PC + 2) % 65536 }
  else if key = 0x0018 then
    .ok { s with soundTimer := s.V s.X, PC := (s.PC + 2) % 65536 }
  else if key = 0x001E then
    let result := (s.I + s.V s.X) % 65536
    let V1 := setAt s.V 0xF (flag (decide (result > 0xFFF)))
    .ok { s with V := V1, I := (s.I + V1 s.X) % 65536, PC := (s.PC + 2) % 65536 }
  else if key = 0x0029 then
    .ok { s with I := (s.V s.X * 5) % 65536, PC := (s.PC + 2) % 65536 }
  else if key = 0x0033 then
    if s.I + 2 < c_memorySize then
      let m1 := setAt s.memory s.I (s.V s.X / 100)
      let m2 := setAt m1 (s.I + 1) ((s.V s.X / 10) % 10)
      let m3 := setAt m2 (s.I + 2) ((s.V s.X % 100) % 10)
      .ok { s with memory := m3, PC := (s.PC + 2) % 65536 }
    else .error .outOfBounds
  else if key = 0x0055 then
    (copyVToMemory (s.X + 1) s).map
      (fun t => { t with I := (t.I + (t.X + 1)) % 65536, PC := (t.PC + 2) % 65536 })
  else if key = 0x0065 then
    (copyMemoryToV (s.X + 1) s).map
      (fun t => { t with I := (t.I + (t.X + 1)) % 65536, PC := (t.PC + 2) % 65536 })
  else .error .badFunctionCall

/-- The table `opCodesTable`, looked up at `key` and called; `rnd` is the value
`randomNext()` returns in this cycle. -/
def opCodesTable (rnd : Nat) (key : Nat) (s : State) : Except Fault State :=
  if key = 0x0000 then
    (opCode0Table s.NN s).map (fun t => { t with PC := (t.PC + 2) % 65536 })
  else if key = 0x1000 then
    .ok { s with PC := s.NNN }
  else if key = 0x2000 then
    .ok { s with stack := s.PC :: s.stack, PC := s.NNN }
  else if key = 0x3000 then
    .ok { s with PC := (s.PC + (if s.V s.X = s.NN then 4 else 2)) % 65536 }
  else if key = 0x4000 then
    .ok { s with PC := (s.PC + (if s.V s.X ≠ s.NN then 4 else 2)) % 65536 }
  else if key = 0x5000 then
    .ok { s with PC := (s.PC + (if s.V s.X = s.V s.Y then 4 else 2)) % 65536 }
  else if key = 0x6000 then
    .ok { s with V := setAt s.V s.X s.NN, PC := (s.PC + 2) % 65536 }
  else if key = 0x7000 then
    .ok { s with V := setAt s.V s.X ((s.V s.X + s.NN) % 256), PC := (s.PC + 2) % 65536 }
  else if key = 0x8000 then
    (opCode8Table s.N s).map (fun t => { t with PC := (t.PC + 2) % 65536 })
  else if key = 0x9000 then
    .ok { s with PC := (s.PC + (if s.V s.X ≠ s.V s.Y then 4 else 2)) % 65536 }
  else if key = 0xA000 then
    .ok { s with I := s.NNN, PC := (s.PC + 2) % 65536 }
  else if key = 0xB000 then
    .ok { s with PC := (s.NNN + s.V 0) % 65536 }
  else if key = 0xC000 then
    .ok { s with V := setAt s.V s.X ((rnd &&& s.NN) % 256), PC := (s.PC + 2) % 65536 }
  else if key = 0xD000 then
    (draw s).map (fun t => { t with drawFlag := true, PC := (t.PC + 2) % 65536 })
  else if key = 0xE000 then
    opCodeETable s.NN s
  else if key = 0xF000 then
    opCodeFTable s.NN s
  else .error .badFunctionCall

/-! ## `Chip8::decodeAndExecuteOpcode`, `Chip8::emulateCycle` -/

def decodeAndExecuteOpcode (rnd : Nat) (s : State) : Except Fault State :=
  let instructionIndex := s.opCode &&& 0xF000
  opCodesTable rnd instructionIndex s

def emulateCycle (rnd : Nat) (s : State) : Except Fault State :=
  fetchOpcode s >>= decodeAndExecuteOpcode rnd

/-! ## `Chip8::initialize` -/

/-- The table `fontSet` of `initialize`. -/
def fontSet : List Nat :=
  [ 0xF0, 0x90, 0x90, 0x90, 0xF0,
    0x20, 0x60, 0x20, 0x20, 0x70,
    0xF0, 0x10, 0xF0, 0x80, 0xF0,
    0xF0, 0x10, 0xF0, 0x10, 0xF0,
    0x90, 0x90, 0xF0, 0x10, 0x10,
    0xF0, 0x80, 0xF0, 0x10, 0xF0,
    0xF0, 0x80, 0xF0, 0x90, 0xF0,
    0xF0, 0x10, 0x20, 0x40, 0x40,
    0xF0, 0x90, 0xF0, 0x90, 0xF0,
    0xF0, 0x90, 0xF0, 0x10, 0xF0,
    0xF0, 0x90, 0xF0, 0x90, 0x90,
    0xE0, 0x90, 0xE0, 0x90, 0xE0,
    0xF0, 0x80, 0x80, 0x80, 0xF0,
    0xE0, 0x90, 0x90, 0x90, 0xE0,
    0xF0, 0x80, 0xF0, 0x80, 0xF0,
    0xF0, 0x80, 0xF0, 0x80, 0x80 ]

/-- `std::vector::resize(n, value)`: truncates, or appends copies of `value`;
the cells that were already there keep their contents. -/
def resize (v : List Nat) (n value : Nat) : List Nat :=
  v.take n ++ List.replicate (n - v.length) value

/-- The member function `Chip8::initialize` (the name is reserved in Lean). -/
def initializeChip8 (s : State) : State :=
  { stack := []
    V := fun _ => 0
    memory := fun a => if a < c_fontSetSize then fontSet.getD a 0 else 0
    keys := s.keys
    display := resize s.display c_displaySize 0
    opCode := 0
    NNN := 0
    NN := 0
    N := 0
    X := 0
    Y := 0
    PC := 0x200
    I := 0
    delayTimer := 0
    soundTimer := 0
    drawFlag := true }

/-! ## What the C++ types guarantee of every object -/

/-- The ranges of the C++ types of the members: `byte` is below 256 and
`twoByte` below 65536. -/
structure WellTyped (s : State) : Prop where
  V_byte : ∀ i, i < c_numRegisters → s.V i < 256
  memory_byte : ∀ a, a < c_memorySize → s.memory a < 256
  display_byte : ∀ px ∈ s.display, px < 256
  stack_twoByte : ∀ x ∈ s.stack, x < 65536
  PC_twoByte : s.PC < 65536
  I_twoByte : s.I < 65536
  delayTimer_byte : s.delayTimer < 256
  soundTimer_byte : s.soundTimer < 256

/-- A freshly constructed object on which `initialize` has run, no key held. -/
def powerOn : State :=
  initializeChip8
    { stack := [], V := fun _ => 0, memory := fun _ => 0, keys := fun _ => false,
      display := [], opCode := 0, NNN := 0, NN := 0, N := 0, X := 0, Y := 0,
      PC := 0, I := 0, delayTimer := 0, soundTimer := 0, drawFlag := false }

/-- The state `s` with the two bytes `hi`, `lo` stored at `PC`, `PC + 1`. -/
def withInstr (s : State) (hi lo : Nat) : State :=
  { s with memory := setAt (setAt s.memory s.PC hi) (s.PC + 1) lo }

/-- Writing the registers of a state. -/
def withV (s : State) (V : Nat → Nat) : State := { s with V := V }

/-- The state after a fetch that read the bytes `hi`, `lo`. -/
def fetched (s : State) (hi lo : Nat) : State :=
  { s with
    opCode := hi * 256 + lo
    NNN := hi % 16 * 256 + lo
    NN := lo
    N := lo % 16
    X := hi % 16
    Y := lo / 16 }

/-- The next instruction of `s` is the two bytes `hi`, `lo`, both inside memory. -/
def instrAt (s : State) (hi lo : Nat) : Prop :=
  s.PC + 1 < c_memorySize ∧ s.memory s.PC = hi ∧ s.memory (s.PC + 1) = lo

/-- The members other than `PC` and the decoded instruction fields agree. -/
def sameButPC (s t : State) : Prop :=
  t.V = s.V ∧ t.I = s.I ∧ t.memory = s.memory ∧ t.stack = s.stack ∧
  t.delayTimer = s.delayTimer ∧ t.soundTimer = s.soundTimer ∧ t.keys = s.keys ∧
  t.display = s.display ∧ t.drawFlag = s.drawFlag

/-- State for the return instruction: 00EE at 0x200 and 0x300 on the stack. -/
def retState : State :=
  { withInstr powerOn 0x00 0xEE with stack := [0x300] }

/-- Registers with V0 = 3 and VF = 7, the others 0. -/
def regs_3_7 : Nat → Nat := setAt (setAt (fun _ => 0) 0 3) 0xF 7

/-- State for 8XY4 with X = 0 and Y = 0xF: the bytes 80 F4 at 0x200. -/
def addState : State :=
  withV (withInstr powerOn 0x80 0xF4) regs_3_7

/-- The state `s` with the two bytes `hi`, `lo` stored at `a`, `a + 1`. -/
def withBytes (s : State) (a hi lo : Nat) : State :=
  { s with memory := setAt (setAt s.memory a hi) (a + 1) lo }

/-- Writing the index register of a state. -/
def withI (s : State) (i : Nat) : State := { s with I := i }

/-- One cycle succeeds, adds 4 to PC (mod 2^16) when `cond` holds and 2
otherwise, and changes nothing else. -/
def skipsWhen (rnd : Nat) (s : State) (cond : Prop) [Decidable cond] : Prop :=
  ∃ t, emulateCycle rnd s = .ok t ∧
    t.PC = (s.PC + (if cond then 4 else 2)) % 65536 ∧ sameButPC s t

/-- The memory after `copyVToMemory n`. -/
def storedMemory (V memory : Nat → Nat) (I n : Nat) : Nat → Nat :=
  fun a => if I ≤ a ∧ a < I + n then V (a - I) else memory a

/-- The registers after `copyMemoryToV n`. -/
def loadedV (V memory : Nat → Nat) (I n : Nat) : Nat → Nat :=
  fun k => if k < n then memory (I + k) else V k

/-- Registers with V1 = 5, V2 = 9 and V3 = 254, the others 0. -/
def regs_5_9_254 : Nat → Nat := setAt (setAt (setAt (fun _ => 0) 1 5) 2 9) 3 254

/-- The power-on state with the registers `regs_5_9_254`, I = 0x300 and the
instruction `hi lo` at 0x200. -/
def sampleState (hi lo : Nat) : State :=
  withI (withV (withInstr powerOn hi lo) regs_5_9_254) 0x300

/-- State for the FX55 / FX65 round trip: F2 55 at 0x200, F2 65 at 0x202. -/
def roundTripState : State :=
  withBytes (sampleState 0xF2 0x55) 0x202 0xF2 0x65

/-- Test `(rowDrawStart & (MSB >> xPos)) != 0` of `draw`. -/
def spriteBit (rowDrawStart xPos : Nat) : Bool :=
  decide (rowDrawStart &&& (MSB >>> xPos) ≠ 0)

/-- Effect of one set sprite bit on the pair (framebuffer, collision seen):
the cell `p` is XOR-ed with 0xFF and a collision is recorded if it was 0xFF. -/
def plot (dc : List Nat × Bool) (p : Nat) : List Nat × Bool :=
  (dc.1.set p (dc.1.getD p 0 ^^^ 0xFF), dc.2 || decide (dc.1.getD p 0 = 0xFF))

/-- Cells hit by one sprite row, in the order of the inner loop. -/
def rowHits (rowDrawStart spritePos1D : Nat) : List Nat :=
  ((List.range 8).filter (spriteBit rowDrawStart)).map
    (fun xPos => (spritePos1D + xPos) % c_displaySize)

/-- Cells hit by the first `n` sprite rows, in the order of the loops. -/
def spriteHits (memory : Nat → Nat) (I vx vy : Nat) : Nat → List Nat
  | 0 => []
  | n + 1 =>
    spriteHits memory I vx vy n ++ rowHits (memory (I + n)) (vx + (vy + n) * c_displayWidth)

/-- The state during a `draw` on `s`: framebuffer and collision flag so far. -/
def drawnState (s : State) (dc : List Nat × Bool) : State :=
  { s with V := setAt s.V 0xF (flag dc.2), display := dc.1 }

/-- Index `pixelPos` of `draw` for the sprite bit at row `yPos`, column `xPos`,
when `V[X]` = `vx` and `V[Y]` = `vy`. -/
def pixelPos (vx vy yPos xPos : Nat) : Nat :=
  (vx + (vy + yPos) * c_displayWidth + xPos) % c_displaySize

/-- The pair (framebuffer, collision flag) after `draw` has run `n` rows at
(vx, vy) on the framebuffer `display`. -/
def drawn (memory : Nat → Nat) (I : Nat) (display : List Nat) (vx vy n : Nat) :
    List Nat × Bool :=
  (spriteHits memory I vx vy n).foldl plot (display, false)

/-- The state after a cycle that fetched `hi lo` and drew `dc`. -/
def afterDraw (s : State) (hi lo : Nat) (dc : List Nat × Bool) : State :=
  { drawnState (fetched s hi lo) dc with drawFlag := true, PC := s.PC + 2 }

/-- Two cycles in a row. -/
def twoCycles (rnd1 rnd2 : Nat) (s : State) : Except Fault State :=
  emulateCycle rnd1 s >>= emulateCycle rnd2

/-- Read-out of a result: the framebuffer cell `p`, if the run succeeded. -/
def cellOf (r : Except Fault State) (p : Nat) : Option Nat :=
  match r with
  | .ok t => t.display[p]?
  | .error _ => none

/-- The power-on state with registers `V`, I = 0x300, the instruction `hi lo`
at 0x200 and again at 0x202, and the sprite rows `row0`, `row1` at 0x300. -/
def drawState (hi lo : Nat) (V : Nat → Nat) (row0 row1 : Nat) : State :=
  withBytes (withBytes (withI (withV (withInstr powerOn hi lo) V) 0x300) 0x202 hi lo)
    0x300 row0 row1

/-- D011 (X = 0, Y = 1, N = 1) at (V0, V1) = (63, 0) with the row 0xFF. -/
def wrapState : State := drawState 0xD0 0x11 (setAt (fun _ => 0) 0 63) 0xFF 0x00

/-- DF01 (X = 0xF, Y = 0, N = 1) with VF = 5 and the row 0x80. -/
def flagXState : State := drawState 0xDF 0x01 (setAt (fun _ => 0) 0xF 5) 0x80 0x00

/-- DF02 (X = 0xF, Y = 0, N = 2) with all registers 0 and the rows 0x80, 0x80. -/
def aliasState : State := drawState 0xDF 0x02 (fun _ => 0) 0x80 0x80

/-! ## `Chip8::updateTimers`, `Chip8::loadGame`, `Chip8::setKeys` -/

/-- The argument `playSound` is the value the caller's variable holds at the
call; the result carries the value it holds afterwards. -/
def updateTimers (playSound : Bool) (s : State) : State × Bool :=
  let s1 := if s.delayTimer > 0 then { s with delayTimer := s.delayTimer - 1 } else s
  if s1.soundTimer > 0 then
    let playSound1 := if s1.soundTimer = 1 then true else playSound
    ({ s1 with soundTimer := s1.soundTimer - 1 }, playSound1)
  else (s1, playSound)

/-- The argument `file` is the content of the file `name`, `none` when the
stream fails to open; the Boolean is the value returned. A byte read past the
end of `memory` (undefined behaviour in C++) is the fault `outOfBounds`. -/
def loadGame (file : Option (List Nat)) (s : State) : Except Fault (State × Bool) :=
  match file with
  | none => .ok (s, false)
  | some bytes =>
    (bytes.foldlM
      (fun (ti : State × Nat) (currentFileByte : Nat) =>
        if ti.2 < c_memorySize then
          Except.ok ({ ti.1 with memory := setAt ti.1.memory ti.2 (currentFileByte % 256) },
            ti.2 + 1)
        else Except.error Fault.outOfBounds) (s, 0x200)).map (fun ti => (ti.1, true))

/-- `std::copy(updatedKeys.begin(), updatedKeys.end(), keys.begin())`. -/
def setKeys (updatedKeys : List Bool) (s : State) : Except Fault State :=
  if updatedKeys.length ≤ c_numKeys then
    .ok { s with keys := fun k => updatedKeys.getD k (s.keys k) }
  else .error .outOfBounds

/-! ## Runs of the machine -/

/-- States reachable from a freshly constructed object (empty `display` vector
and empty stack, the other members indeterminate) by `initialize` followed by
any sequence of successful `loadGame`, `setKeys`, `emulateCycle` and
`updateTimers` calls; the index counts the `emulateCycle` calls. -/
inductive ReachableIn : Nat → State → Prop where
  | init (s : State) : s.display = [] → s.stack = [] → ReachableIn 0 (initializeChip8 s)
  | load (n : Nat) (s t : State) (file : Option (List Nat)) (ok : Bool) :
      ReachableIn n s → loadGame file s = .ok (t, ok) → ReachableIn n t
  | keys (n : Nat) (s t : State) (updatedKeys : List Bool) :
      ReachableIn n s → setKeys updatedKeys s = .ok t → ReachableIn n t
  | cycle (n rnd : Nat) (s t : State) :
      ReachableIn n s → emulateCycle rnd s = .ok t → ReachableIn (n + 1) t
  | tick (n : Nat) (s : State) (playSound : Bool) :
      ReachableIn n s → ReachableIn n (updateTimers playSound s).1

/-- The framebuffer has `c_displaySize` cells, each 0 or 0xFF. -/
def DisplayOK (display : List Nat) : Prop :=
  display.length = c_displaySize ∧ ∀ px ∈ display, px = 0 ∨ px = 0xFF

/-- `n` cycles in a row, each with the random value `rnd`. -/
def cycles (rnd : Nat) : Nat → State → Except Fault State
  | 0, s => .ok s
  | n + 1, s => cycles rnd n s >>= emulateCycle rnd

/-- Read-out of a result: the number of entries on the stack, if the run
succeeded. -/
def stackSizeOf (r : Except Fault State) : Option Nat :=
  match r with
  | .ok t => some t.stack.length
  | .error _ => none

/-- The code has a table entry for the opcode `hi lo`: every top nibble has an
entry in `opCodesTable`, and the families 0, 8, E and F look `NN` (or `N`) up in
their own table. -/
def hasTableEntry (hi lo : Nat) : Bool :=
  if hi / 16 = 0x0 then lo = 0xE0 || lo = 0xEE
  else if hi / 16 = 0x8 then
    lo % 16 = 0 || lo % 16 = 1 || lo % 16 = 2 || lo % 16 = 3 || lo % 16 = 4 ||
    lo % 16 = 5 || lo % 16 = 6 || lo % 16 = 7 || lo % 16 = 0xE
  else if hi / 16 = 0xE then lo = 0x9E || lo = 0xA1
  else if hi / 16 = 0xF then
    lo = 0x07 || lo = 0x0A || lo = 0x15 || lo = 0x18 || lo = 0x1E || lo = 0x29 ||
    lo = 0x33 || lo = 0x55 || lo = 0x65
  else true

/-- The opcode `hi lo` matches a pattern of the instruction table of the
specification (section 4.1): the patterns 5XY0 and 9XY0 have the low nibble 0 and
00E0, 00EE have the high byte 00. -/
def matchesSpecPattern (hi lo : Nat) : Bool :=
  if hi / 16 = 0x0 then hi = 0x00 && (lo = 0xE0 || lo = 0xEE)
  else if hi / 16 = 0x5 || hi / 16 = 0x9 then lo % 16 = 0
  else hasTableEntry hi lo

/-- The program 2200 (call 0x200) loaded into the power-on state. -/
def callLoopState : State := withInstr powerOn 0x22 0x00

/-- Registers with VF = 7, the others 0. -/
def regs_F_7 : Nat → Nat := setAt (fun _ => 0) 0xF 7

/-- State for FX1E with X = 0xF: FF 1E at 0x200, VF = 7, I = 0x300. -/
def indexAddState : State :=
  withI (withV (withInstr powerOn 0xFF 0x1E) regs_F_7) 0x300

/-- The memory after `loadGame` has copied `bytes` to `i`, `i + 1`, ... -/
def loadedMemory (memory : Nat → Nat) (i : Nat) (bytes : List Nat) : Nat → Nat :=
  fun a => if i ≤ a ∧ a < i + bytes.length then bytes.getD (a - i) 0 % 256 else memory a

/-- State for FX0A with the keys 3 and 7 held: F1 0A at 0x200. -/
def heldKeysState : State :=
  { sampleState 0xF1 0x0A with keys := fun k => decide (k = 3) || decide (k = 7) }

/-- The linear-index reference of the sprite draw: some set bit of the sprite,
at row r < N and column c < 8 (bit 7 - c of memory[I + r]), has the index
(Vx + 64 * (Vy + r) + c) mod 2048 equal to `p`. -/
def linearTarget (s : State) (X Y N p : Nat) : Prop :=
  ∃ r c, r < N ∧ c < 8 ∧ (s.memory (s.I + r)).testBit (7 - c) = true ∧
    p = (s.V X + 64 * (s.V Y + r) + c) % 2048

/-- State for a call and its return: 23 00 (call 0x300) at 0x200 and 00 EE at
0x300. -/
def callReturnState : State := withBytes (withInstr powerOn 0x23 0x00) 0x300 0x00 0xEE

/-- State for 0NEE with N = 1: the bytes 01 EE at 0x200 and 0x300 on the stack. -/
def retFamilyState : State :=
  { sampleState 0x01 0xEE with stack := [0x300] }

theorem shiftRight_and (a b i : Nat) : (a &&& b) >>> i = (a >>> i) &&& (b >>> i) := by
  apply Nat.eq_of_testBit_eq
  intro j
  simp [Nat.testBit_shiftRight, Nat.testBit_and]

theorem and_0FFF (op : Nat) : op &&& 0x0FFF = op % 4096 :=
  Nat.and_pow_two_sub_one_eq_mod op 12

theorem and_00FF (op : Nat) : op &&& 0x00FF = op % 256 :=
  Nat.and_pow_two_sub_one_eq_mod op 8

theorem and_000F (op : Nat) : op &&& 0x000F = op % 16 :=
  Nat.and_pow_two_sub_one_eq_mod op 4

theorem and_0F00_shift (op : Nat) : (op &&& 0x0F00) >>> 8 = op / 256 % 16 := by
  rw [shiftRight_and, Nat.shiftRight_eq_div_pow]
  exact Nat.and_pow_two_sub_one_eq_mod (op / 2 ^ 8) 4

theorem and_00F0_shift (op : Nat) : (op &&& 0x00F0) >>> 4 = op / 16 % 16 := by
  rw [shiftRight_and, Nat.shiftRight_eq_div_pow]
  exact Nat.and_pow_two_sub_one_eq_mod (op / 2 ^ 4) 4

theorem and_F000 (op : Nat) : op &&& 0xF000 = op / 4096 % 16 * 4096 := by
  have h : op &&& 0xF000 = ((op &&& 0xF000) >>> 12) <<< 12 := by
    apply Nat.eq_of_testBit_eq
    intro j
    simp only [Nat.testBit_shiftLeft, Nat.testBit_shiftRight, Nat.testBit_and]
    by_cases hj : j ≥ 12
    · simp [hj, Nat.add_sub_cancel' hj]
    · have h2 : Nat.testBit 0xF000 j = false := by
        have : j < 12 := by omega
        interval_cases j <;> rfl
      simp [hj, h2]
  rw [h, shiftRight_and, Nat.shiftRight_eq_div_pow, Nat.shiftLeft_eq]
  congr 1
  exact Nat.and_pow_two_sub_one_eq_mod (op / 2 ^ 12) 4

theorem bytes_opcode (hi lo : Nat) (hlo : lo < 256) : (hi <<< 8) ||| lo = hi * 256 + lo := by
  rw [Nat.shiftLeft_eq, Nat.mul_comm]
  exact (Nat.mul_add_lt_is_or (by simpa using hlo) hi).symm

theorem fetchOpcode_eq (s : State) (hPC : s.PC + 1 < c_memorySize)
    (hhi : s.memory s.PC < 256) (hlo : s.memory (s.PC + 1) < 256) :
    fetchOpcode s = .ok (fetched s (s.memory s.PC) (s.memory (s.PC + 1))) := by
  have hop : ((s.memory s.PC <<< 8) ||| s.memory (s.PC + 1)) % 65536
      = s.memory s.PC * 256 + s.memory (s.PC + 1) := by
    rw [bytes_opcode _ _ hlo]
    omega
  have e1 : (s.memory s.PC * 256 + s.memory (s.PC + 1)) % 4096
      = s.memory s.PC % 16 * 256 + s.memory (s.PC + 1) := by omega
  have e2 : (s.memory s.PC * 256 + s.memory (s.PC + 1)) % 256 = s.memory (s.PC + 1) := by
    omega
  have e3 : (s.memory s.PC * 256 + s.memory (s.PC + 1)) % 16 = s.memory (s.PC + 1) % 16 := by
    omega
  have e4 : (s.memory s.PC * 256 + s.memory (s.PC + 1)) / 256 % 16 = s.memory s.PC % 16 := by
    omega
  have e5 : (s.memory s.PC * 256 + s.memory (s.PC + 1)) / 16 % 16
      = s.memory (s.PC + 1) / 16 := by omega
  unfold fetchOpcode fetched
  rw [if_pos hPC]
  simp only [hop, and_0FFF, and_00FF, and_000F, and_0F00_shift, and_00F0_shift,
    e1, e2, e3, e4, e5]

/-- One cycle on a state whose next two bytes are `hi`, `lo`: the fetch decodes
them and the dispatch runs the entry of `opCodesTable` for the top nibble. -/
theorem emulateCycle_eq (rnd : Nat) (s : State) (hi lo : Nat)
    (hPC : s.PC + 1 < c_memorySize) (h1 : s.memory s.PC = hi)
    (h2 : s.memory (s.PC + 1) = lo) (hhi : hi < 256) (hlo : lo < 256) :
    emulateCycle rnd s = opCodesTable rnd (hi / 16 * 4096) (fetched s hi lo) := by
  have hf := fetchOpcode_eq s hPC (h1 ▸ hhi) (h2 ▸ hlo)
  rw [h1, h2] at hf
  have hk : (hi * 256 + lo) / 4096 % 16 * 4096 = hi / 16 * 4096 := by omega
  unfold emulateCycle
  rw [hf]
  show decodeAndExecuteOpcode rnd (fetched s hi lo) = _
  unfold decodeAndExecuteOpcode
  simp only [and_F000]
  show opCodesTable rnd ((hi * 256 + lo) / 4096 % 16 * 4096) (fetched s hi lo) = _
  rw [hk]

/-- C1: for every state with PC <= 4094, fetchOpcode succeeds, the opcode is
memory[PC]*256 + memory[PC+1], NNN = opcode mod 4096, NN = opcode mod 256,
N = opcode mod 16, X = (opcode / 256) mod 16, Y = (opcode / 16) mod 16, the
opcode is topNibble*4096 + X*256 + Y*16 + N, and PC, I, V, memory, stack,
timers and framebuffer are unchanged. -/
theorem fetchOpcode_big_endian (s : State) (hw : WellTyped s) (hPC : s.PC ≤ 4094) :
    ∃ t, fetchOpcode s = .ok t ∧
      t.opCode = s.memory s.PC * 256 + s.memory (s.PC + 1) ∧
      t.NNN = t.opCode % 4096 ∧ t.NN = t.opCode % 256 ∧ t.N = t.opCode % 16 ∧
      t.X = t.opCode / 256 % 16 ∧ t.Y = t.opCode / 16 % 16 ∧
      t.opCode = t.opCode / 4096 * 4096 + t.X * 256 + t.Y * 16 + t.N ∧
      t.PC = s.PC ∧ t.I = s.I ∧ t.V = s.V ∧ t.memory = s.memory ∧
      t.stack = s.stack ∧ t.delayTimer = s.delayTimer ∧
      t.soundTimer = s.soundTimer ∧ t.display = s.display := by
  have h1 : s.PC + 1 < c_memorySize := by unfold c_memorySize; omega
  have h0 : s.PC < c_memorySize := by unfold c_memorySize; omega
  have b0 := hw.memory_byte _ h0
  have b1 := hw.memory_byte _ h1
  refine ⟨_, fetchOpcode_eq s h1 b0 b1, ?_⟩
  simp only [fetched, true_and, and_true]
  omega

/-! ## Concrete states -/

theorem fontSet_byte : ∀ a, a < 80 → fontSet.getD a 0 < 256 := by decide

theorem wellTyped_powerOn : WellTyped powerOn where
  V_byte := fun _ _ => by simp [powerOn, initializeChip8]
  memory_byte := fun a _ => by
    simp only [powerOn, initializeChip8, c_fontSetSize]
    split
    · exact fontSet_byte a (by assumption)
    · decide
  display_byte := fun px hpx => by
    simp [powerOn, initializeChip8, resize] at hpx
    omega
  stack_twoByte := fun x hx => by simp [powerOn, initializeChip8] at hx
  PC_twoByte := by decide
  I_twoByte := by decide
  delayTimer_byte := by decide
  soundTimer_byte := by decide

theorem setAt_byte (a : Nat → Nat) (n i v : Nat) (ha : ∀ j, j < n → a j < 256)
    (hv : v < 256) : ∀ j, j < n → setAt a i v j < 256 := by
  intro j hj
  unfold setAt
  split
  · exact hv
  · exact ha j hj

theorem WellTyped.withInstr {s : State} (hw : WellTyped s) (hi lo : Nat)
    (hhi : hi < 256) (hlo : lo < 256) : WellTyped (withInstr s hi lo) where
  V_byte := hw.V_byte
  memory_byte := setAt_byte _ _ _ _ (setAt_byte _ _ _ _ hw.memory_byte hhi) hlo
  display_byte := hw.display_byte
  stack_twoByte := hw.stack_twoByte
  PC_twoByte := hw.PC_twoByte
  I_twoByte := hw.I_twoByte
  delayTimer_byte := hw.delayTimer_byte
  soundTimer_byte := hw.soundTimer_byte

theorem WellTyped.withV {s : State} (hw : WellTyped s) (V : Nat → Nat)
    (hV : ∀ i, i < c_numRegisters → V i < 256) : WellTyped (withV s V) where
  V_byte := hV
  memory_byte := hw.memory_byte
  display_byte := hw.display_byte
  stack_twoByte := hw.stack_twoByte
  PC_twoByte := hw.PC_twoByte
  I_twoByte := hw.I_twoByte
  delayTimer_byte := hw.delayTimer_byte
  soundTimer_byte := hw.soundTimer_byte

theorem instrAt_withInstr (s : State) (hi lo : Nat) (hPC : s.PC + 1 < c_memorySize) :
    instrAt (withInstr s hi lo) hi lo := by
  refine ⟨hPC, ?_, ?_⟩
  · show setAt (setAt s.memory s.PC hi) (s.PC + 1) lo s.PC = hi
    simp [setAt]
  · show setAt (setAt s.memory s.PC hi) (s.PC + 1) lo (s.PC + 1) = lo
    simp [setAt]

/-- Witness of C1: the example of the source comment, the bytes A2 F0 at 0x200. -/
theorem fetchOpcode_big_endian_witness :
    ∃ t, fetchOpcode (withInstr powerOn 0xA2 0xF0) = .ok t ∧
      t.opCode = (withInstr powerOn 0xA2 0xF0).memory (withInstr powerOn 0xA2 0xF0).PC * 256
        + (withInstr powerOn 0xA2 0xF0).memory ((withInstr powerOn 0xA2 0xF0).PC + 1) ∧
      t.NNN = t.opCode % 4096 ∧ t.NN = t.opCode % 256 ∧ t.N = t.opCode % 16 ∧
      t.X = t.opCode / 256 % 16 ∧ t.Y = t.opCode / 16 % 16 ∧
      t.opCode = t.opCode / 4096 * 4096 + t.X * 256 + t.Y * 16 + t.N ∧
      t.PC = (withInstr powerOn 0xA2 0xF0).PC ∧ t.I = (withInstr powerOn 0xA2 0xF0).I ∧
      t.V = (withInstr powerOn 0xA2 0xF0).V ∧
      t.memory = (withInstr powerOn 0xA2 0xF0).memory ∧
      t.stack = (withInstr powerOn 0xA2 0xF0).stack ∧
      t.delayTimer = (withInstr powerOn 0xA2 0xF0).delayTimer ∧
      t.soundTimer = (withInstr powerOn 0xA2 0xF0).soundTimer ∧
      t.display = (withInstr powerOn 0xA2 0xF0).display :=
  fetchOpcode_big_endian (withInstr powerOn 0xA2 0xF0)
    (wellTyped_powerOn.withInstr 0xA2 0xF0 (by decide) (by decide)) (by decide)

/-! ## Entries of the dispatch tables -/

theorem step_of_instrAt (rnd : Nat) (s : State) (hi lo : Nat) (h : instrAt s hi lo)
    (hhi : hi < 256) (hlo : lo < 256) :
    emulateCycle rnd s = opCodesTable rnd (hi / 16 * 4096) (fetched s hi lo) :=
  emulateCycle_eq rnd s hi lo h.1 h.2.1 h.2.2 hhi hlo

theorem instrAt_PC {s : State} {hi lo : Nat} (h : instrAt s hi lo) : s.PC ≤ 4094 := by
  have := h.1
  unfold c_memorySize at this
  omega

/-! ## 8XY4 -/

/-- 8XY4 with X and Y both different from 0xF: VF is the carry of a + b,
Vx = (a + b) mod 256, the other registers are unchanged and PC advances by 2. -/
theorem add_carry_no_alias (rnd : Nat) (s : State) (X Y : Nat) (hX : X < 15) (hY : Y < 15)
    (h : instrAt s (0x80 + X) (Y * 16 + 4)) :
    ∃ t, emulateCycle rnd s = .ok t ∧
      t.V 0xF = (if s.V X + s.V Y > 255 then 1 else 0) ∧
      t.V X = (s.V X + s.V Y) % 256 ∧
      (∀ i, i ≠ X → i ≠ 0xF → t.V i = s.V i) ∧ t.PC = s.PC + 2 := by
  have hk : (0x80 + X) / 16 * 4096 = 0x8000 := by omega
  have hx : (0x80 + X) % 16 = X := by omega
  have hy : (Y * 16 + 4) / 16 = Y := by omega
  have hn : (Y * 16 + 4) % 16 = 4 := by omega
  have hXF : X ≠ 15 := by omega
  have hYF : Y ≠ 15 := by omega
  have hpc := instrAt_PC h
  rw [step_of_instrAt rnd s _ _ h (by omega) (by omega), hk]
  simp [opCodesTable, opCode8Table, fetched, hx, hy, hn, Except.map, setAt, flag, hXF, hYF]
  refine ⟨by omega, ?_, by omega⟩
  intro i h1 h2
  simp [h1, h2]

/-- C5, the code at X = 0, Y = 0xF, V0 = 3, VF = 7: a + b = 10 has no carry, the
flag is written first and the addition then reads the flag as Vy, so V0 stays 3
where the claim has V0 = 10. -/
theorem add_carry_reads_flag :
    addState.V 0 = 3 ∧ addState.V 0xF = 7 ∧ instrAt addState 0x80 0xF4 ∧
    ∃ t, emulateCycle 0 addState = .ok t ∧ t.V 0xF = 0 ∧ t.V 0 = 3 ∧
      t.V 0 ≠ (addState.V 0 + addState.V 0xF) % 256 := by
  refine ⟨rfl, rfl, instrAt_withInstr _ _ _ (by decide), ?_⟩
  rw [step_of_instrAt 0 addState 0x80 0xF4 (instrAt_withInstr _ _ _ (by decide))
    (by decide) (by decide)]
  refine ⟨_, rfl, ?_, ?_, ?_⟩ <;> decide

theorem WellTyped.withI {s : State} (hw : WellTyped s) (i : Nat) (hi : i < 65536) :
    WellTyped (withI s i) where
  V_byte := hw.V_byte
  memory_byte := hw.memory_byte
  display_byte := hw.display_byte
  stack_twoByte := hw.stack_twoByte
  PC_twoByte := hw.PC_twoByte
  I_twoByte := hi
  delayTimer_byte := hw.delayTimer_byte
  soundTimer_byte := hw.soundTimer_byte

theorem regs_5_9_254_byte : ∀ i, i < c_numRegisters → regs_5_9_254 i < 256 :=
  setAt_byte _ _ _ _ (setAt_byte _ _ _ _ (setAt_byte _ _ _ _ (fun _ _ => by decide)
    (by decide)) (by decide)) (by decide)

theorem wellTyped_sampleState (hi lo : Nat) (hhi : hi < 256) (hlo : lo < 256) :
    WellTyped (sampleState hi lo) :=
  ((wellTyped_powerOn.withInstr hi lo hhi hlo).withV _ regs_5_9_254_byte).withI _ (by decide)

theorem instrAt_sampleState (hi lo : Nat) : instrAt (sampleState hi lo) hi lo :=
  instrAt_withInstr powerOn hi lo (by decide)

/-! ## 8XY5, 8XY7 -/

/-- C6: for X and Y both different from 0xF, with a = Vx and b = Vy before the
instruction, 8XY5 yields Vx = (a - b) mod 256 and VF = 1 exactly when a > b;
8XY7 yields Vx = (b - a) mod 256 and VF = 1 exactly when b > a; in both cases
the registers other than Vx and VF are unchanged and PC advances by 2. -/
theorem sub_borrow_flag (rnd : Nat) (s : State) (X Y : Nat) (hw : WellTyped s)
    (hX : X < 15) (hY : Y < 15) :
    (instrAt s (0x80 + X) (Y * 16 + 5) →
      ∃ t, emulateCycle rnd s = .ok t ∧
        (t.V X : Int) = ((s.V X : Int) - (s.V Y : Int)) % 256 ∧
        t.V 0xF = (if s.V X > s.V Y then 1 else 0) ∧
        (∀ i, i ≠ X → i ≠ 0xF → t.V i = s.V i) ∧ t.PC = s.PC + 2) ∧
    (instrAt s (0x80 + X) (Y * 16 + 7) →
      ∃ t, emulateCycle rnd s = .ok t ∧
        (t.V X : Int) = ((s.V Y : Int) - (s.V X : Int)) % 256 ∧
        t.V 0xF = (if s.V Y > s.V X then 1 else 0) ∧
        (∀ i, i ≠ X → i ≠ 0xF → t.V i = s.V i) ∧ t.PC = s.PC + 2) := by
  have hk : (0x80 + X) / 16 * 4096 = 0x8000 := by omega
  have hx : (0x80 + X) % 16 = X := by omega
  have hy5 : (Y * 16 + 5) / 16 = Y := by omega
  have hn5 : (Y * 16 + 5) % 16 = 5 := by omega
  have hy7 : (Y * 16 + 7) / 16 = Y := by omega
  have hn7 : (Y * 16 + 7) % 16 = 7 := by omega
  have hXF : X ≠ 15 := by omega
  have hYF : Y ≠ 15 := by omega
  have ha := hw.V_byte X (by unfold c_numRegisters; omega)
  have hb := hw.V_byte Y (by unfold c_numRegisters; omega)
  constructor
  · intro h
    have hpc := instrAt_PC h
    rw [step_of_instrAt rnd s _ _ h (by omega) (by omega), hk]
    simp [opCodesTable, opCode8Table, fetched, hx, hy5, hn5, Except.map, setAt, flag, hXF, hYF]
    refine ⟨by omega, by omega, ?_, by omega⟩
    intro i h1 h2
    simp [h1, h2]
  · intro h
    have hpc := instrAt_PC h
    rw [step_of_instrAt rnd s _ _ h (by omega) (by omega), hk]
    simp [opCodesTable, opCode8Table, fetched, hx, hy7, hn7, Except.map, setAt, flag, hXF, hYF]
    refine ⟨by omega, by omega, ?_, by omega⟩
    intro i h1 h2
    simp [h1, h2]

/-- Witness of C6: V1 = 5, V2 = 9 with 81 25 (5 - 9 wraps to 252, VF = 0) and
with 81 27 (9 - 5 = 4, VF = 1). -/
theorem sub_borrow_flag_witness :
    (∃ t, emulateCycle 0 (sampleState 0x81 0x25) = .ok t ∧
        (t.V 1 : Int) = (((sampleState 0x81 0x25).V 1 : Int)
          - ((sampleState 0x81 0x25).V 2 : Int)) % 256 ∧
        t.V 0xF = (if (sampleState 0x81 0x25).V 1 > (sampleState 0x81 0x25).V 2
          then 1 else 0) ∧
        (∀ i, i ≠ 1 → i ≠ 0xF → t.V i = (sampleState 0x81 0x25).V i) ∧
        t.PC = (sampleState 0x81 0x25).PC + 2) ∧
    (∃ t, emulateCycle 0 (sampleState 0x81 0x27) = .ok t ∧
        (t.V 1 : Int) = (((sampleState 0x81 0x27).V 2 : Int)
          - ((sampleState 0x81 0x27).V 1 : Int)) % 256 ∧
        t.V 0xF = (if (sampleState 0x81 0x27).V 2 > (sampleState 0x81 0x27).V 1
          then 1 else 0) ∧
        (∀ i, i ≠ 1 → i ≠ 0xF → t.V i = (sampleState 0x81 0x27).V i) ∧
        t.PC = (sampleState 0x81 0x27).PC + 2) :=
  ⟨(sub_borrow_flag 0 (sampleState 0x81 0x25) 1 2
      (wellTyped_sampleState _ _ (by decide) (by decide)) (by decide) (by decide)).1
      (instrAt_sampleState 0x81 0x25),
   (sub_borrow_flag 0 (sampleState 0x81 0x27) 1 2
      (wellTyped_sampleState _ _ (by decide) (by decide)) (by decide) (by decide)).2
      (instrAt_sampleState 0x81 0x27)⟩

/-! ## 00EE -/

/-- One cycle on 00EE with a non-empty stack: the table entry sets PC to the
top of the stack and pops it, and the entry of the family then adds 2. -/
theorem emulateCycle_00EE (rnd : Nat) (s : State) (top : Nat) (rest : List Nat)
    (h : instrAt s 0x00 0xEE) (hs : s.stack = top :: rest) :
    emulateCycle rnd s
      = .ok { fetched s 0x00 0xEE with PC := (top + 2) % 65536, stack := rest } := by
  rw [step_of_instrAt rnd s _ _ h (by omega) (by omega)]
  simp [opCodesTable, opCode0Table, fetched, hs, Except.map]

/-- C7, as amended: for every state whose stack is non-empty with top element t
and whose instruction at PC is 00EE, after one cycle PC equals t + 2 (mod 2^16)
and the stack is the old stack with its top removed. -/
theorem ret_resumes_after_call (rnd : Nat) (s : State) (top : Nat) (rest : List Nat)
    (h : instrAt s 0x00 0xEE) (hs : s.stack = top :: rest) :
    ∃ t, emulateCycle rnd s = .ok t ∧ t.PC = (top + 2) % 65536 ∧ t.stack = rest :=
  ⟨_, emulateCycle_00EE rnd s top rest h hs, rfl, rfl⟩

/-- Witness of C7 as amended: 00EE at 0x200 with 0x300 on the stack. -/
theorem ret_resumes_after_call_witness :
    ∃ t, emulateCycle 0 retState = .ok t ∧ t.PC = (0x300 + 2) % 65536 ∧ t.stack = [] :=
  ret_resumes_after_call 0 retState 0x300 [] (instrAt_withInstr powerOn 0x00 0xEE (by decide)) rfl

/-- C7 as stated fails: with 00EE at 0x200 and the stack holding 0x300 alone, the
cycle ends with PC = 0x302, so no resulting state has PC = 0x300. -/
theorem ret_not_exactly_top :
    instrAt retState 0x00 0xEE ∧ retState.stack = [0x300] ∧
    (∃ t, emulateCycle 0 retState = .ok t ∧ t.PC = 0x302 ∧ t.stack = []) ∧
    ¬ ∃ t, emulateCycle 0 retState = .ok t ∧ t.PC = 0x300 ∧ t.stack = [] := by
  have hi : instrAt retState 0x00 0xEE := instrAt_withInstr powerOn 0x00 0xEE (by decide)
  have he := emulateCycle_00EE 0 retState 0x300 [] hi rfl
  refine ⟨hi, rfl, ⟨_, he, rfl, rfl⟩, ?_⟩
  rintro ⟨t, ht, hpc, -⟩
  rw [he] at ht
  injection ht with ht
  subst ht
  exact absurd hpc (by decide)

/-! ## 3XNN, 4XNN, 5XY0, 9XY0, EX9E, EXA1 -/

/-- C8: each of 3XNN (Vx == NN), 4XNN (Vx != NN), 5XY0 (Vx == Vy), 9XY0
(Vx != Vy), EX9E (key[Vx] pressed) and EXA1 (key[Vx] not pressed), the last two
with Vx < 16, sets PC to PC + 4 (mod 2^16) when its condition holds and to
PC + 2 otherwise, and leaves V, I, memory, stack, timers, key state,
framebuffer and draw flag unchanged. -/
theorem conditional_skips (rnd : Nat) (s : State) (X Y NN : Nat)
    (hX : X < 16) (hY : Y < 16) (hNN : NN < 256) :
    (instrAt s (0x30 + X) NN → skipsWhen rnd s (s.V X = NN)) ∧
    (instrAt s (0x40 + X) NN → skipsWhen rnd s (s.V X ≠ NN)) ∧
    (instrAt s (0x50 + X) (Y * 16) → skipsWhen rnd s (s.V X = s.V Y)) ∧
    (instrAt s (0x90 + X) (Y * 16) → skipsWhen rnd s (s.V X ≠ s.V Y)) ∧
    (instrAt s (0xE0 + X) 0x9E → s.V X < 16 → skipsWhen rnd s (s.keys (s.V X) = true)) ∧
    (instrAt s (0xE0 + X) 0xA1 → s.V X < 16 →
      skipsWhen rnd s (s.keys (s.V X) = false)) := by
  unfold skipsWhen
  have hx3 : (0x30 + X) % 16 = X := by omega
  have hx4 : (0x40 + X) % 16 = X := by omega
  have hx5 : (0x50 + X) % 16 = X := by omega
  have hx9 : (0x90 + X) % 16 = X := by omega
  have hxE : (0xE0 + X) % 16 = X := by omega
  have hk3 : (0x30 + X) / 16 * 4096 = 0x3000 := by omega
  have hk4 : (0x40 + X) / 16 * 4096 = 0x4000 := by omega
  have hk5 : (0x50 + X) / 16 * 4096 = 0x5000 := by omega
  have hk9 : (0x90 + X) / 16 * 4096 = 0x9000 := by omega
  have hkE : (0xE0 + X) / 16 * 4096 = 0xE000 := by omega
  have hy : Y * 16 / 16 = Y := by omega
  refine ⟨?_, ?_, ?_, ?_, ?_, ?_⟩
  · intro h
    rw [step_of_instrAt rnd s _ _ h (by omega) hNN, hk3]
    simp [opCodesTable, fetched, hx3, sameButPC]
  · intro h
    rw [step_of_instrAt rnd s _ _ h (by omega) hNN, hk4]
    simp [opCodesTable, fetched, hx4, sameButPC]
  · intro h
    rw [step_of_instrAt rnd s _ _ h (by omega) (by omega), hk5]
    simp [opCodesTable, fetched, hx5, hy, sameButPC]
  · intro h
    rw [step_of_instrAt rnd s _ _ h (by omega) (by omega), hk9]
    simp [opCodesTable, fetched, hx9, hy, sameButPC]
  · intro h hv
    rw [step_of_instrAt rnd s _ _ h (by omega) (by omega), hkE]
    simp [opCodesTable, opCodeETable, fetched, hxE, sameButPC, c_numKeys, hv]
  · intro h hv
    rw [step_of_instrAt rnd s _ _ h (by omega) (by omega), hkE]
    simp [opCodesTable, opCodeETable, fetched, hxE, sameButPC, c_numKeys, hv]

/-- Witness of C8: V1 = 5, V2 = 9, no key held, one state for each opcode. -/
theorem conditional_skips_witness :
    skipsWhen 0 (sampleState 0x31 0x05) ((sampleState 0x31 0x05).V 1 = 5) ∧
    skipsWhen 0 (sampleState 0x41 0x05) ((sampleState 0x41 0x05).V 1 ≠ 5) ∧
    skipsWhen 0 (sampleState 0x51 0x20)
      ((sampleState 0x51 0x20).V 1 = (sampleState 0x51 0x20).V 2) ∧
    skipsWhen 0 (sampleState 0x91 0x20)
      ((sampleState 0x91 0x20).V 1 ≠ (sampleState 0x91 0x20).V 2) ∧
    skipsWhen 0 (sampleState 0xE1 0x9E)
      ((sampleState 0xE1 0x9E).keys ((sampleState 0xE1 0x9E).V 1) = true) ∧
    skipsWhen 0 (sampleState 0xE1 0xA1)
      ((sampleState 0xE1 0xA1).keys ((sampleState 0xE1 0xA1).V 1) = false) :=
  ⟨(conditional_skips 0 (sampleState 0x31 0x05) 1 2 5 (by decide) (by decide) (by decide)).1
      (instrAt_sampleState 0x31 0x05),
   (conditional_skips 0 (sampleState 0x41 0x05) 1 2 5 (by decide) (by decide)
      (by decide)).2.1 (instrAt_sampleState 0x41 0x05),
   (conditional_skips 0 (sampleState 0x51 0x20) 1 2 5 (by decide) (by decide)
      (by decide)).2.2.1 (instrAt_sampleState 0x51 0x20),
   (conditional_skips 0 (sampleState 0x91 0x20) 1 2 5 (by decide) (by decide)
      (by decide)).2.2.2.1 (instrAt_sampleState 0x91 0x20),
   (conditional_skips 0 (sampleState 0xE1 0x9E) 1 2 5 (by decide) (by decide)
      (by decide)).2.2.2.2.1 (instrAt_sampleState 0xE1 0x9E) (by decide),
   (conditional_skips 0 (sampleState 0xE1 0xA1) 1 2 5 (by decide) (by decide)
      (by decide)).2.2.2.2.2 (instrAt_sampleState 0xE1 0xA1) (by decide)⟩

/-! ## FX33 -/

/-- C9: for every X, every value v = Vx and every I <= 4093, after FX33 the
bytes h = memory[I], t = memory[I+1], u = memory[I+2] satisfy
100*h + 10*t + u = v with h <= 2, t <= 9 and u <= 9; every other memory byte,
every register and I are unchanged, and PC advances by 2. -/
theorem bcd_round_trip (rnd : Nat) (s : State) (X : Nat) (hw : WellTyped s)
    (hX : X < 16) (hI : s.I ≤ 4093) (h : instrAt s (0xF0 + X) 0x33) :
    ∃ t, emulateCycle rnd s = .ok t ∧
      100 * t.memory s.I + 10 * t.memory (s.I + 1) + t.memory (s.I + 2) = s.V X ∧
      t.memory s.I ≤ 2 ∧ t.memory (s.I + 1) ≤ 9 ∧ t.memory (s.I + 2) ≤ 9 ∧
      (∀ a, a ≠ s.I → a ≠ s.I + 1 → a ≠ s.I + 2 → t.memory a = s.memory a) ∧
      t.V = s.V ∧ t.I = s.I ∧ t.PC = s.PC + 2 := by
  have hx : (0xF0 + X) % 16 = X := by omega
  have hk : (0xF0 + X) / 16 * 4096 = 0xF000 := by omega
  have hv := hw.V_byte X hX
  have hpc := instrAt_PC h
  have hI2 : s.I + 2 < 4096 := by omega
  rw [step_of_instrAt rnd s _ _ h (by omega) (by omega), hk]
  simp [opCodesTable, opCodeFTable, fetched, hx, c_memorySize, hI2, setAt]
  refine ⟨by omega, by omega, by omega, by omega, ?_, by omega⟩
  intro a h1 h2 h3
  simp [h1, h2, h3]
/-- Witness of C9: V3 = 254, I = 0x300 and F3 33 at 0x200. -/
theorem bcd_round_trip_witness :
    ∃ t, emulateCycle 0 (sampleState 0xF3 0x33) = .ok t ∧
      100 * t.memory (sampleState 0xF3 0x33).I
        + 10 * t.memory ((sampleState 0xF3 0x33).I + 1)
        + t.memory ((sampleState 0xF3 0x33).I + 2) = (sampleState 0xF3 0x33).V 3 ∧
      t.memory (sampleState 0xF3 0x33).I ≤ 2 ∧
      t.memory ((sampleState 0xF3 0x33).I + 1) ≤ 9 ∧
      t.memory ((sampleState 0xF3 0x33).I + 2) ≤ 9 ∧
      (∀ a, a ≠ (sampleState 0xF3 0x33).I → a ≠ (sampleState 0xF3 0x33).I + 1 →
        a ≠ (sampleState 0xF3 0x33).I + 2 →
        t.memory a = (sampleState 0xF3 0x33).memory a) ∧
      t.V = (sampleState 0xF3 0x33).V ∧ t.I = (sampleState 0xF3 0x33).I ∧
      t.PC = (sampleState 0xF3 0x33).PC + 2 :=
  bcd_round_trip 0 (sampleState 0xF3 0x33) 3
    (wellTyped_sampleState _ _ (by decide) (by decide)) (by decide) (by decide)
    (instrAt_sampleState 0xF3 0x33)

/-! ## FX55, FX65 -/

theorem ok_bind {ε α β : Type} (x : α) (f : α → Except ε β) :
    (Except.ok x >>= f) = f x := rfl

theorem copyVToMemory_eq (n : Nat) (s : State) (h : s.I + n ≤ c_memorySize) :
    copyVToMemory n s = .ok { s with memory := storedMemory s.V s.memory s.I n } := by
  induction n with
  | zero =>
    have e : storedMemory s.V s.memory s.I 0 = s.memory := by
      funext a
      simp [storedMemory]
    simp [copyVToMemory, e]
    rfl
  | succ n ih =>
    have ih1 := ih (by omega)
    unfold copyVToMemory at ih1 ⊢
    rw [List.range_succ, List.foldlM_append, ih1]
    have hlt : s.I + n < c_memorySize := by omega
    have e : setAt (storedMemory s.V s.memory s.I n) (s.I + n) (s.V n)
        = storedMemory s.V s.memory s.I (n + 1) := by
      funext a
      unfold setAt storedMemory
      by_cases ha : a = s.I + n
      · subst ha
        simp
      · rw [if_neg ha]
        by_cases hb : s.I ≤ a ∧ a < s.I + n
        · rw [if_pos hb, if_pos (by omega)]
        · rw [if_neg hb, if_neg (by omega)]
    simp [ok_bind, hlt, e]

theorem copyMemoryToV_eq (n : Nat) (s : State) (h : s.I + n ≤ c_memorySize) :
    copyMemoryToV n s = .ok { s with V := loadedV s.V s.memory s.I n } := by
  induction n with
  | zero =>
    have e : loadedV s.V s.memory s.I 0 = s.V := by
      funext a
      simp [loadedV]
    simp [copyMemoryToV, e]
    rfl
  | succ n ih =>
    have ih1 := ih (by omega)
    unfold copyMemoryToV at ih1 ⊢
    rw [List.range_succ, List.foldlM_append, ih1]
    have hlt : s.I + n < c_memorySize := by omega
    have e : setAt (loadedV s.V s.memory s.I n) n (s.memory (s.I + n))
        = loadedV s.V s.memory s.I (n + 1) := by
      funext a
      unfold setAt loadedV
      by_cases ha : a = n
      · subst ha
        simp
      · rw [if_neg ha]
        by_cases hb : a < n
        · rw [if_pos hb, if_pos (by omega)]
        · rw [if_neg hb, if_neg (by omega)]
    simp [ok_bind, hlt, e]

theorem emulateCycle_FX55 (rnd : Nat) (s : State) (X : Nat) (hX : X < 16)
    (hI : s.I + X ≤ 4095) (h : instrAt s (0xF0 + X) 0x55) :
    emulateCycle rnd s = .ok { fetched s (0xF0 + X) 0x55 with
      memory := storedMemory s.V s.memory s.I (X + 1)
      I := s.I + X + 1
      PC := s.PC + 2 } := by
  have hx : (0xF0 + X) % 16 = X := by omega
  have hk : (0xF0 + X) / 16 * 4096 = 0xF000 := by omega
  have hpc := instrAt_PC h
  have e1 : (s.I + (X + 1)) % 65536 = s.I + X + 1 := by omega
  have e2 : (s.PC + 2) % 65536 = s.PC + 2 := by omega
  rw [step_of_instrAt rnd s _ _ h (by omega) (by omega), hk]
  have hc := copyVToMemory_eq (X + 1) (fetched s (0xF0 + X) 0x55)
    (by show s.I + (X + 1) ≤ 4096; omega)
  simp only [fetched, hx] at hc ⊢
  simp [opCodesTable, opCodeFTable, hc, Except.map, e1, e2]

theorem emulateCycle_FX65 (rnd : Nat) (s : State) (X : Nat) (hX : X < 16)
    (hI : s.I + X ≤ 4095) (h : instrAt s (0xF0 + X) 0x65) :
    emulateCycle rnd s = .ok { fetched s (0xF0 + X) 0x65 with
      V := loadedV s.V s.memory s.I (X + 1)
      I := s.I + X + 1
      PC := s.PC + 2 } := by
  have hx : (0xF0 + X) % 16 = X := by omega
  have hk : (0xF0 + X) / 16 * 4096 = 0xF000 := by omega
  have hpc := instrAt_PC h
  have e1 : (s.I + (X + 1)) % 65536 = s.I + X + 1 := by omega
  have e2 : (s.PC + 2) % 65536 = s.PC + 2 := by omega
  rw [step_of_instrAt rnd s _ _ h (by omega) (by omega), hk]
  have hc := copyMemoryToV_eq (X + 1) (fetched s (0xF0 + X) 0x65)
    (by show s.I + (X + 1) ≤ 4096; omega)
  simp only [fetched, hx] at hc ⊢
  simp [opCodesTable, opCodeFTable, hc, Except.map, e1, e2]

/-- C10: for every X in 0..0xF and every state with I + X <= 4095, FX55 writes
memory[I + k] = Vk for all k <= X, changes no other memory byte and no
register, and sets I to I + X + 1; if I is then set back to its original value
and the registers (and PC) are overwritten arbitrarily, FX65 with the same X
restores V0..VX to their values before the FX55 and leaves V(X+1)..VF as they
were just before the FX65. -/
theorem store_load_round_trip (rnd1 rnd2 : Nat) (s : State) (X : Nat) (hX : X < 16)
    (hI : s.I + X ≤ 4095) (h : instrAt s (0xF0 + X) 0x55) :
    ∃ t, emulateCycle rnd1 s = .ok t ∧
      (∀ k, k ≤ X → t.memory (s.I + k) = s.V k) ∧
      (∀ a, a < s.I ∨ s.I + X < a → t.memory a = s.memory a) ∧
      t.V = s.V ∧ t.I = s.I + X + 1 ∧
      ∀ (V2 : Nat → Nat) (pc : Nat),
        instrAt { t with I := s.I, V := V2, PC := pc } (0xF0 + X) 0x65 →
        ∃ w, emulateCycle rnd2 { t with I := s.I, V := V2, PC := pc } = .ok w ∧
          (∀ k, k ≤ X → w.V k = s.V k) ∧ (∀ k, X < k → w.V k = V2 k) := by
  refine ⟨_, emulateCycle_FX55 rnd1 s X hX hI h, ?_, ?_, rfl, rfl, ?_⟩
  · intro k hk
    show storedMemory s.V s.memory s.I (X + 1) (s.I + k) = s.V k
    unfold storedMemory
    rw [if_pos (by omega)]
    congr 1
    omega
  · intro a ha
    show storedMemory s.V s.memory s.I (X + 1) a = s.memory a
    unfold storedMemory
    rw [if_neg (by omega)]
  · intro V2 pc h2
    refine ⟨_, emulateCycle_FX65 rnd2 _ X hX hI h2, ?_, ?_⟩
    · intro k hk
      show loadedV V2 (storedMemory s.V s.memory s.I (X + 1)) s.I (X + 1) k = s.V k
      unfold loadedV storedMemory
      rw [if_pos (by omega), if_pos (by omega)]
      congr 1
      omega
    · intro k hk
      show loadedV V2 (storedMemory s.V s.memory s.I (X + 1)) s.I (X + 1) k = V2 k
      unfold loadedV
      rw [if_neg (by omega)]
theorem instrAt_roundTripState : instrAt roundTripState 0xF2 0x55 :=
  ⟨by decide, rfl, rfl⟩

/-- Witness of C10: V0..V2 = 0, 5, 9 stored at 0x300 by F2 55 at 0x200, the
registers then cleared, and restored by F2 65 at 0x202. -/
theorem store_load_round_trip_witness :
    ∃ t, emulateCycle 0 roundTripState = .ok t ∧
      (∀ k, k ≤ 2 → t.memory (roundTripState.I + k) = roundTripState.V k) ∧
      (∀ a, a < roundTripState.I ∨ roundTripState.I + 2 < a →
        t.memory a = roundTripState.memory a) ∧
      t.V = roundTripState.V ∧ t.I = roundTripState.I + 2 + 1 ∧
      ∃ w, emulateCycle 0 { t with I := roundTripState.I, V := fun _ => 0, PC := 0x202 }
          = .ok w ∧
        (∀ k, k ≤ 2 → w.V k = roundTripState.V k) ∧ (∀ k, 2 < k → w.V k = 0) := by
  obtain ⟨t, ht, hm, hrest, hV, hI, h65⟩ :=
    store_load_round_trip 0 0 roundTripState 2 (by decide) (by decide)
      instrAt_roundTripState
  refine ⟨t, ht, hm, hrest, hV, hI, h65 (fun _ => 0) 0x202 ⟨?_, ?_, ?_⟩⟩
  · show 0x202 + 1 < c_memorySize
    decide
  · show t.memory 0x202 = 0xF0 + 2
    rw [hrest 0x202 (Or.inl (by decide))]
    rfl
  · show t.memory 0x203 = 0x65
    rw [hrest 0x203 (Or.inl (by decide))]
    rfl

/-! ## DXYN -/

theorem setAt_setAt (a : Nat → Nat) (i v w : Nat) : setAt (setAt a i v) i w = setAt a i w := by
  funext j
  unfold setAt
  split <;> rfl

theorem plot_length (dc : List Nat × Bool) (p : Nat) : (plot dc p).1.length = dc.1.length := by
  simp [plot]

theorem foldl_plot_length (ps : List Nat) (dc : List Nat × Bool) :
    (ps.foldl plot dc).1.length = dc.1.length := by
  induction ps generalizing dc with
  | nil => rfl
  | cons p ps ih => rw [List.foldl_cons, ih, plot_length]

theorem drawPixel_drawnState (row base : Nat) (s : State) (dc : List Nat × Bool) (x : Nat)
    (hd : dc.1.length = c_displaySize) :
    drawPixel row base (drawnState s dc) x
      = .ok (drawnState s (if spriteBit row x then plot dc ((base + x) % c_displaySize)
          else dc)) := by
  unfold drawPixel spriteBit
  by_cases hb : row &&& (MSB >>> x) ≠ 0
  · have hp : (base + x) % c_displaySize < dc.1.length := by
      rw [hd]
      exact Nat.mod_lt _ (by decide)
    have hget : (drawnState s dc).display[(base + x) % c_displaySize]?
        = some (dc.1.getD ((base + x) % c_displaySize) 0) := by
      show dc.1[(base + x) % c_displaySize]? = _
      rw [List.getD_eq_getElem _ _ hp, List.getElem?_eq_getElem hp]
    have hV : ∀ px : Nat,
        (if px = 0xFF then setAt (setAt s.V 0xF (flag dc.2)) 0xF 1
          else setAt s.V 0xF (flag dc.2))
        = setAt s.V 0xF (flag (dc.2 || decide (px = 0xFF))) := by
      intro px
      by_cases hc : px = 0xFF
      · simp [hc, setAt_setAt, flag]
      · simp [hc]
    rw [if_pos hb, if_pos (decide_eq_true hb)]
    dsimp only
    rw [hget]
    show Except.ok { drawnState s dc with
      V := if dc.1.getD ((base + x) % c_displaySize) 0 = 0xFF
        then setAt (setAt s.V 0xF (flag dc.2)) 0xF 1 else setAt s.V 0xF (flag dc.2)
      display := dc.1.set ((base + x) % c_displaySize)
        (dc.1.getD ((base + x) % c_displaySize) 0 ^^^ 0xFF) } = _
    rw [hV]
    rfl
  · rw [if_neg hb, if_neg (by simpa using hb)]

theorem foldlM_drawPixel (row base : Nat) (s : State) (xs : List Nat) (dc : List Nat × Bool)
    (hd : dc.1.length = c_displaySize) :
    xs.foldlM (drawPixel row base) (drawnState s dc)
      = .ok (drawnState s
          (((xs.filter (spriteBit row)).map (fun x => (base + x) % c_displaySize)).foldl
            plot dc)) := by
  induction xs generalizing dc with
  | nil => rfl
  | cons x xs ih =>
    rw [List.foldlM_cons, drawPixel_drawnState row base s dc x hd, ok_bind]
    by_cases hb : spriteBit row x = true
    · rw [if_pos hb, ih _ (by rw [plot_length]; exact hd)]
      simp [List.filter_cons, hb]
    · rw [if_neg hb, ih _ hd]
      simp [List.filter_cons, hb]

theorem drawRow_drawnState (s : State) (dc : List Nat × Bool) (y : Nat)
    (hX : s.X ≠ 0xF) (hY : s.Y ≠ 0xF) (hI : s.I + y < c_memorySize)
    (hd : dc.1.length = c_displaySize) :
    drawRow (drawnState s dc) y
      = .ok (drawnState s ((rowHits (s.memory (s.I + y))
          (s.V s.X + (s.V s.Y + y) * c_displayWidth)).foldl plot dc)) := by
  have hx : setAt s.V 0xF (flag dc.2) s.X = s.V s.X := by simp [setAt, hX]
  have hy : setAt s.V 0xF (flag dc.2) s.Y = s.V s.Y := by simp [setAt, hY]
  unfold drawRow
  show (if s.I + y < c_memorySize then _ else _) = _
  rw [if_pos hI]
  show List.foldlM (drawPixel (s.memory (s.I + y))
    (setAt s.V 0xF (flag dc.2) s.X + (setAt s.V 0xF (flag dc.2) s.Y + y) * c_displayWidth))
    (drawnState s dc) (List.range 8) = _
  rw [hx, hy, foldlM_drawPixel _ _ s _ dc hd]
  rfl

theorem foldlM_drawRow (s : State) (n : Nat) (hX : s.X ≠ 0xF) (hY : s.Y ≠ 0xF)
    (hI : s.I + n ≤ c_memorySize) (hd : s.display.length = c_displaySize) :
    (List.range n).foldlM drawRow (drawnState s (s.display, false))
      = .ok (drawnState s
          ((spriteHits s.memory s.I (s.V s.X) (s.V s.Y) n).foldl plot (s.display, false))) := by
  induction n with
  | zero => rfl
  | succ n ih =>
    rw [List.range_succ, List.foldlM_append, ih (by omega), ok_bind]
    rw [List.foldlM_cons, drawRow_drawnState s _ n hX hY (by omega)
      (by rw [foldl_plot_length]; exact hd), ok_bind]
    simp [spriteHits, List.foldl_append]
    rfl

theorem draw_eq (s : State) (hX : s.X ≠ 0xF) (hY : s.Y ≠ 0xF)
    (hI : s.I + s.N ≤ c_memorySize) (hd : s.display.length = c_displaySize) :
    draw s = .ok (drawnState s
      ((spriteHits s.memory s.I (s.V s.X) (s.V s.Y) s.N).foldl plot (s.display, false))) :=
  foldlM_drawRow s s.N hX hY hI hd

theorem getD_set (l : List Nat) (p v q : Nat) (hp : p < l.length) :
    (l.set p v).getD q 0 = if q = p then v else l.getD q 0 := by
  simp only [List.getD_eq_getElem?_getD, List.getElem?_set]
  by_cases h : p = q
  · subst h
    simp [hp]
  · rw [if_neg h, if_neg (Ne.symm h)]

theorem any_congr_mem (l : List Nat) (f g : Nat → Bool) (h : ∀ x ∈ l, f x = g x) :
    l.any f = l.any g := by
  induction l with
  | nil => rfl
  | cons a l ih =>
    rw [List.any_cons, List.any_cons, h a (List.mem_cons_self _ _),
      ih (fun x hx => h x (List.mem_cons_of_mem _ hx))]

theorem foldl_plot_spec (ps : List Nat) (dc : List Nat × Bool) (hn : ps.Nodup)
    (hlt : ∀ p ∈ ps, p < dc.1.length) :
    (∀ q, (ps.foldl plot dc).1.getD q 0
      = if q ∈ ps then dc.1.getD q 0 ^^^ 0xFF else dc.1.getD q 0) ∧
    (ps.foldl plot dc).2 = (dc.2 || ps.any (fun p => decide (dc.1.getD p 0 = 0xFF))) := by
  induction ps generalizing dc with
  | nil => simp
  | cons p ps ih =>
    have hp : p < dc.1.length := hlt p (List.mem_cons_self _ _)
    have hnp : p ∉ ps := (List.nodup_cons.mp hn).1
    have hlt2 : ∀ x ∈ ps, x < (plot dc p).1.length := by
      intro x hx
      rw [plot_length]
      exact hlt x (List.mem_cons_of_mem _ hx)
    obtain ⟨ih1, ih2⟩ := ih (plot dc p) (List.nodup_cons.mp hn).2 hlt2
    have hget : ∀ q, (plot dc p).1.getD q 0
        = if q = p then dc.1.getD p 0 ^^^ 0xFF else dc.1.getD q 0 :=
      fun q => getD_set dc.1 p _ q hp
    constructor
    · intro q
      rw [List.foldl_cons, ih1 q, hget q]
      by_cases hq : q = p
      · subst hq
        simp [hnp]
      · by_cases hq2 : q ∈ ps
        · simp [hq, hq2]
        · simp [hq, hq2]
    · rw [List.foldl_cons, ih2]
      have hany : ps.any (fun x => decide ((plot dc p).1.getD x 0 = 0xFF))
          = ps.any (fun x => decide (dc.1.getD x 0 = 0xFF)) := by
        apply any_congr_mem
        intro x hx
        have hxp : x ≠ p := fun e => hnp (e ▸ hx)
        rw [hget x, if_neg hxp]
      rw [hany, List.any_cons]
      show (dc.2 || decide (dc.1.getD p 0 = 0xFF) || _) = _
      rw [Bool.or_assoc]

theorem mem_rowHits (row base p : Nat) :
    p ∈ rowHits row base
      ↔ ∃ c, c < 8 ∧ spriteBit row c = true ∧ p = (base + c) % c_displaySize := by
  simp only [rowHits, List.mem_map, List.mem_filter, List.mem_range]
  constructor
  · rintro ⟨c, ⟨hc, hb⟩, rfl⟩
    exact ⟨c, hc, hb, rfl⟩
  · rintro ⟨c, hc, hb, rfl⟩
    exact ⟨c, ⟨hc, hb⟩, rfl⟩

theorem mem_spriteHits (memory : Nat → Nat) (I vx vy n p : Nat) :
    p ∈ spriteHits memory I vx vy n
      ↔ ∃ r c, r < n ∧ c < 8 ∧ spriteBit (memory (I + r)) c = true
          ∧ p = pixelPos vx vy r c := by
  induction n with
  | zero => simp [spriteHits]
  | succ n ih =>
    rw [spriteHits, List.mem_append, ih, mem_rowHits]
    constructor
    · rintro (⟨r, c, hr, hc, hb, hp⟩ | ⟨c, hc, hb, hp⟩)
      · exact ⟨r, c, by omega, hc, hb, hp⟩
      · exact ⟨n, c, by omega, hc, hb, hp⟩
    · rintro ⟨r, c, hr, hc, hb, hp⟩
      by_cases hrn : r = n
      · subst hrn
        exact Or.inr ⟨c, hc, hb, hp⟩
      · exact Or.inl ⟨r, c, by omega, hc, hb, hp⟩

theorem pixelPos_lt (vx vy r c : Nat) : pixelPos vx vy r c < c_displaySize :=
  Nat.mod_lt _ (by decide)

theorem pixelPos_inj (vx vy r c r2 c2 : Nat) (hr : r < 32) (hc : c < 8) (hr2 : r2 < 32)
    (hc2 : c2 < 8) (h : pixelPos vx vy r c = pixelPos vx vy r2 c2) : r = r2 ∧ c = c2 := by
  unfold pixelPos c_displaySize c_displayWidth c_displayHeight at h
  omega

theorem nodup_rowHits (row base : Nat) : (rowHits row base).Nodup := by
  unfold rowHits
  apply List.Nodup.map_on
  · intro x hx y hy hxy
    have hx8 : x < 8 := List.mem_range.mp (List.mem_filter.mp hx).1
    have hy8 : y < 8 := List.mem_range.mp (List.mem_filter.mp hy).1
    unfold c_displaySize c_displayWidth c_displayHeight at hxy
    omega
  · exact (List.nodup_range 8).filter _

theorem nodup_spriteHits (memory : Nat → Nat) (I vx vy n : Nat) (hn : n ≤ 32) :
    (spriteHits memory I vx vy n).Nodup := by
  induction n with
  | zero => simp [spriteHits]
  | succ n ih =>
    rw [spriteHits, List.nodup_append]
    refine ⟨ih (by omega), nodup_rowHits _ _, ?_⟩
    intro p hp1 hp2
    rw [mem_spriteHits] at hp1
    rw [mem_rowHits] at hp2
    obtain ⟨r, c, hr, hc, -, e1⟩ := hp1
    obtain ⟨c2, hc2, -, e2⟩ := hp2
    have e3 : pixelPos vx vy r c = pixelPos vx vy n c2 := e1.symm.trans e2
    have := pixelPos_inj vx vy r c n c2 (by omega) hc (by omega) hc2 e3
    omega

theorem spriteBit_iff (row c : Nat) (hc : c < 8) :
    spriteBit row c = true ↔ row.testBit (7 - c) = true := by
  have hm : MSB >>> c = 2 ^ (7 - c) := by
    unfold MSB
    interval_cases c <;> rfl
  unfold spriteBit
  rw [hm, decide_eq_true_iff]
  constructor
  · intro h
    by_contra hb
    apply h
    apply Nat.eq_of_testBit_eq
    intro j
    rw [Nat.testBit_and, Nat.testBit_two_pow, Nat.zero_testBit]
    by_cases hj : 7 - c = j
    · subst hj
      simp [hb]
    · simp [hj]
  · intro h h0
    have : (row &&& 2 ^ (7 - c)).testBit (7 - c) = true := by
      rw [Nat.testBit_and, Nat.testBit_two_pow, h]
      simp
    rw [h0, Nat.zero_testBit] at this
    exact absurd this (by decide)

theorem emulateCycle_DXYN (rnd : Nat) (s : State) (X Y N : Nat) (hX : X < 15) (hY : Y < 15)
    (hN : N < 16) (h : instrAt s (0xD0 + X) (Y * 16 + N)) (hI : s.I + N ≤ 4096)
    (hd : s.display.length = 2048) :
    emulateCycle rnd s = .ok (afterDraw s (0xD0 + X) (Y * 16 + N)
      (drawn s.memory s.I s.display (s.V X) (s.V Y) N)) := by
  have hx : (0xD0 + X) % 16 = X := by omega
  have hk : (0xD0 + X) / 16 * 4096 = 0xD000 := by omega
  have hy : (Y * 16 + N) / 16 = Y := by omega
  have hn : (Y * 16 + N) % 16 = N := by omega
  have hpc := instrAt_PC h
  have e2 : (s.PC + 2) % 65536 = s.PC + 2 := by omega
  have hdraw := draw_eq (fetched s (0xD0 + X) (Y * 16 + N))
    (by show (0xD0 + X) % 16 ≠ 0xF; omega) (by show (Y * 16 + N) / 16 ≠ 0xF; omega)
    (by show s.I + (Y * 16 + N) % 16 ≤ 4096; omega) hd
  rw [step_of_instrAt rnd s _ _ h (by omega) (by omega), hk]
  have ht : opCodesTable rnd 0xD000 (fetched s (0xD0 + X) (Y * 16 + N))
      = (draw (fetched s (0xD0 + X) (Y * 16 + N))).map
          (fun t => { t with drawFlag := true, PC := (t.PC + 2) % 65536 }) := by
    simp [opCodesTable]
  rw [ht, hdraw]
  show Except.ok _ = Except.ok _
  simp only [afterDraw, fetched, drawnState, drawn, hx, hy, hn, e2]

theorem spriteHits_lt (memory : Nat → Nat) (I vx vy n : Nat) (d : List Nat)
    (hd : d.length = 2048) :
    ∀ p ∈ spriteHits memory I vx vy n, p < (d, false).1.length := by
  intro p hp
  obtain ⟨r2, c2, -, -, -, e⟩ := (mem_spriteHits _ _ _ _ _ _).mp hp
  rw [e]
  show _ < d.length
  rw [hd]
  exact pixelPos_lt _ _ _ _

/-- The framebuffer after `draw`: a cell is XOR-ed with 0xFF exactly if a set
sprite bit targets it. -/
theorem drawn_getD (memory : Nat → Nat) (I vx vy n : Nat) (d : List Nat) (hn : n ≤ 32)
    (hd : d.length = 2048) (q : Nat) :
    (drawn memory I d vx vy n).1.getD q 0
      = if q ∈ spriteHits memory I vx vy n then d.getD q 0 ^^^ 0xFF else d.getD q 0 :=
  (foldl_plot_spec _ _ (nodup_spriteHits memory I vx vy n hn)
    (spriteHits_lt memory I vx vy n d hd)).1 q

/-- The collision flag after `draw`: set exactly if a targeted cell was 0xFF. -/
theorem drawn_flag (memory : Nat → Nat) (I vx vy n : Nat) (d : List Nat) (hn : n ≤ 32)
    (hd : d.length = 2048) :
    (drawn memory I d vx vy n).2
      = (spriteHits memory I vx vy n).any (fun p => decide (d.getD p 0 = 0xFF)) := by
  have h := (foldl_plot_spec _ _ (nodup_spriteHits memory I vx vy n hn)
    (spriteHits_lt memory I vx vy n d hd)).2
  simpa [drawn] using h

theorem drawn_length (memory : Nat → Nat) (I vx vy n : Nat) (d : List Nat) :
    (drawn memory I d vx vy n).1.length = d.length := by
  unfold drawn
  rw [foldl_plot_length]

theorem mem_spriteHits_of_bit (memory : Nat → Nat) (I vx vy n r c : Nat) (hr : r < n)
    (hc : c < 8) (hb : (memory (I + r)).testBit (7 - c) = true) :
    pixelPos vx vy r c ∈ spriteHits memory I vx vy n :=
  (mem_spriteHits _ _ _ _ _ _).mpr ⟨r, c, hr, hc, (spriteBit_iff _ _ hc).mpr hb, rfl⟩

theorem afterDraw_VF (s : State) (hi lo : Nat) (dc : List Nat × Bool) :
    (afterDraw s hi lo dc).V 0xF = flag dc.2 := by
  show setAt s.V 0xF (flag dc.2) 0xF = flag dc.2
  simp [setAt]

theorem afterDraw_V (s : State) (hi lo : Nat) (dc : List Nat × Bool) (i : Nat) (hi2 : i ≠ 0xF) :
    (afterDraw s hi lo dc).V i = s.V i := by
  show setAt s.V 0xF (flag dc.2) i = s.V i
  simp [setAt, hi2]

/-- C2, as amended: for every DXYN with X and Y different from 0xF, the sprite
rows memory[I..I+N-1] in bounds and a framebuffer of 2048 cells, every set
sprite bit at row r < N and column c < 8 (most significant bit is c = 0)
toggles the framebuffer cell at linear index (Vx + 64*(Vy + r) + c) mod 2048,
that is column (Vx + c) mod 64 of row (Vy + r + (Vx + c) / 64) mod 32, and a cell
that no set bit targets is unchanged; in particular a sprite drawn at (63, 0)
has its columns 1..7 land on columns 0..6 of row 1. -/
theorem draw_wraps_linear (rnd : Nat) (s : State) (X Y N : Nat) (hX : X < 15) (hY : Y < 15)
    (hN : N < 16) (h : instrAt s (0xD0 + X) (Y * 16 + N)) (hI : s.I + N ≤ 4096)
    (hd : s.display.length = 2048) :
    ∃ t, emulateCycle rnd s = .ok t ∧
      (∀ r c, r < N → c < 8 → (s.memory (s.I + r)).testBit (7 - c) = true →
        t.display.getD (pixelPos (s.V X) (s.V Y) r c) 0
          = s.display.getD (pixelPos (s.V X) (s.V Y) r c) 0 ^^^ 0xFF ∧
        pixelPos (s.V X) (s.V Y) r c = (s.V X + 64 * (s.V Y + r) + c) % 2048 ∧
        pixelPos (s.V X) (s.V Y) r c % 64 = (s.V X + c) % 64 ∧
        pixelPos (s.V X) (s.V Y) r c / 64 = (s.V Y + r + (s.V X + c) / 64) % 32) ∧
      (∀ q, (∀ r c, r < N → c < 8 → (s.memory (s.I + r)).testBit (7 - c) = true →
          q ≠ pixelPos (s.V X) (s.V Y) r c) →
        t.display.getD q 0 = s.display.getD q 0) ∧
      (∀ c, 1 ≤ c → c < 8 → pixelPos 63 0 0 c = 64 * 1 + (c - 1)) := by
  refine ⟨_, emulateCycle_DXYN rnd s X Y N hX hY hN h hI hd, ?_, ?_, ?_⟩
  · intro r c hr hc hb
    refine ⟨?_, ?_, ?_, ?_⟩
    · show (drawn s.memory s.I s.display (s.V X) (s.V Y) N).1.getD _ 0 = _
      rw [drawn_getD _ _ _ _ _ _ (by omega) hd,
        if_pos (mem_spriteHits_of_bit _ _ _ _ _ _ _ hr hc hb)]
    · unfold pixelPos c_displaySize c_displayWidth c_displayHeight
      congr 1
      omega
    · unfold pixelPos c_displaySize c_displayWidth c_displayHeight
      omega
    · unfold pixelPos c_displaySize c_displayWidth c_displayHeight
      omega
  · intro q hq
    show (drawn s.memory s.I s.display (s.V X) (s.V Y) N).1.getD _ 0 = _
    rw [drawn_getD _ _ _ _ _ _ (by omega) hd, if_neg]
    intro hmem
    obtain ⟨r, c, hr, hc, hb, e⟩ := (mem_spriteHits _ _ _ _ _ _).mp hmem
    exact hq r c hr hc ((spriteBit_iff _ _ hc).mp hb) e
  · intro c h1 h8
    unfold pixelPos c_displaySize c_displayWidth c_displayHeight
    omega

/-- C3: for every DXYN with X != 0xF and Y != 0xF and sprite rows in bounds,
after the instruction VF = 1 if at least one framebuffer cell targeted by a set
sprite bit was 0xFF before the draw, and VF = 0 otherwise, whatever VF held
before. -/
theorem draw_collision_flag (rnd : Nat) (s : State) (X Y N : Nat) (hX : X < 15) (hY : Y < 15)
    (hN : N < 16) (h : instrAt s (0xD0 + X) (Y * 16 + N)) (hI : s.I + N ≤ 4096)
    (hd : s.display.length = 2048) :
    ∃ t, emulateCycle rnd s = .ok t ∧
      ((∃ r c, r < N ∧ c < 8 ∧ (s.memory (s.I + r)).testBit (7 - c) = true ∧
          s.display.getD (pixelPos (s.V X) (s.V Y) r c) 0 = 0xFF) → t.V 0xF = 1) ∧
      ((¬ ∃ r c, r < N ∧ c < 8 ∧ (s.memory (s.I + r)).testBit (7 - c) = true ∧
          s.display.getD (pixelPos (s.V X) (s.V Y) r c) 0 = 0xFF) → t.V 0xF = 0) := by
  refine ⟨_, emulateCycle_DXYN rnd s X Y N hX hY hN h hI hd, ?_, ?_⟩
  · rintro ⟨r, c, hr, hc, hb, hon⟩
    rw [afterDraw_VF, drawn_flag _ _ _ _ _ _ (by omega) hd]
    have : (spriteHits s.memory s.I (s.V X) (s.V Y) N).any
        (fun p => decide (s.display.getD p 0 = 0xFF)) = true := by
      rw [List.any_eq_true]
      exact ⟨_, mem_spriteHits_of_bit _ _ _ _ _ _ _ hr hc hb, decide_eq_true hon⟩
    rw [this]
    rfl
  · intro hno
    rw [afterDraw_VF, drawn_flag _ _ _ _ _ _ (by omega) hd]
    have : (spriteHits s.memory s.I (s.V X) (s.V Y) N).any
        (fun p => decide (s.display.getD p 0 = 0xFF)) = false := by
      rw [Bool.eq_false_iff]
      intro hany
      rw [List.any_eq_true] at hany
      obtain ⟨p, hp, hon⟩ := hany
      obtain ⟨r, c, hr, hc, hb, e⟩ := (mem_spriteHits _ _ _ _ _ _).mp hp
      apply hno
      refine ⟨r, c, hr, hc, (spriteBit_iff _ _ hc).mp hb, ?_⟩
      rw [← e]
      exact of_decide_eq_true hon
    rw [this]
    rfl

theorem list_eq_of_getD (l1 l2 : List Nat) (hlen : l1.length = l2.length)
    (h : ∀ q, l1.getD q 0 = l2.getD q 0) : l1 = l2 := by
  apply List.ext_getElem hlen
  intro n h1 h2
  have := h n
  rwa [List.getD_eq_getElem _ _ h1, List.getD_eq_getElem _ _ h2] at this

theorem xor_FF_FF (x : Nat) : x ^^^ 0xFF ^^^ 0xFF = x := by
  rw [Nat.xor_assoc, Nat.xor_self, Nat.xor_zero]

/-- C4, as amended: for X and Y different from 0xF, every N and every state
with sprite rows in bounds, executing the same DXYN twice in succession leaves
the framebuffer equal to what it was before the first draw; and if the sprite
has at least one set bit and all cells it targets were off before the first
draw, VF = 1 after the second draw. -/
theorem double_draw_cancels (rnd1 rnd2 : Nat) (s : State) (X Y N : Nat) (hX : X < 15)
    (hY : Y < 15) (hN : N < 16) (h : instrAt s (0xD0 + X) (Y * 16 + N))
    (h2 : s.PC + 3 < 4096 ∧ s.memory (s.PC + 2) = 0xD0 + X ∧ s.memory (s.PC + 3) = Y * 16 + N)
    (hI : s.I + N ≤ 4096) (hd : s.display.length = 2048) :
    ∃ t u, emulateCycle rnd1 s = .ok t ∧ emulateCycle rnd2 t = .ok u ∧
      u.display = s.display ∧
      ((∃ r c, r < N ∧ c < 8 ∧ (s.memory (s.I + r)).testBit (7 - c) = true) →
        (∀ r c, r < N → c < 8 → (s.memory (s.I + r)).testBit (7 - c) = true →
          s.display.getD (pixelPos (s.V X) (s.V Y) r c) 0 = 0) →
        u.V 0xF = 1) := by
  have hd1 := (drawn_length s.memory s.I (s.V X) (s.V Y) N s.display).trans hd
  have e1 := emulateCycle_DXYN rnd1 s X Y N hX hY hN h hI hd
  have e2 := emulateCycle_DXYN rnd2
    (afterDraw s (0xD0 + X) (Y * 16 + N) (drawn s.memory s.I s.display (s.V X) (s.V Y) N))
    X Y N hX hY hN ⟨h2.1, h2.2.1, h2.2.2⟩ hI hd1
  rw [afterDraw_V _ _ _ _ X (by omega), afterDraw_V _ _ _ _ Y (by omega)] at e2
  refine ⟨_, _, e1, e2, ?_, ?_⟩
  · show (drawn s.memory s.I (drawn s.memory s.I s.display (s.V X) (s.V Y) N).1
      (s.V X) (s.V Y) N).1 = s.display
    apply list_eq_of_getD
    · rw [drawn_length, drawn_length]
    · intro q
      rw [drawn_getD _ _ _ _ _ _ (by omega) hd1, drawn_getD _ _ _ _ _ _ (by omega) hd]
      by_cases hq : q ∈ spriteHits s.memory s.I (s.V X) (s.V Y) N
      · rw [if_pos hq, if_pos hq, xor_FF_FF]
      · rw [if_neg hq, if_neg hq]
  · rintro ⟨r, c, hr, hc, hb⟩ hoff
    rw [afterDraw_VF]
    show flag (drawn s.memory s.I (drawn s.memory s.I s.display (s.V X) (s.V Y) N).1
      (s.V X) (s.V Y) N).2 = 1
    rw [drawn_flag _ _ _ _ _ _ (by omega) hd1]
    have hmem := mem_spriteHits_of_bit s.memory s.I (s.V X) (s.V Y) N r c hr hc hb
    have hon : (drawn s.memory s.I s.display (s.V X) (s.V Y) N).1.getD
        (pixelPos (s.V X) (s.V Y) r c) 0 = 0xFF := by
      rw [drawn_getD _ _ _ _ _ _ (by omega) hd, if_pos hmem, hoff r c hr hc hb]
      rfl
    have : (spriteHits s.memory s.I (s.V X) (s.V Y) N).any
        (fun p => decide ((drawn s.memory s.I s.display (s.V X) (s.V Y) N).1.getD p 0
          = 0xFF)) = true := by
      rw [List.any_eq_true]
      exact ⟨_, hmem, decide_eq_true hon⟩
    rw [this]
    rfl

theorem drawState_display_length (hi lo : Nat) (V : Nat → Nat) (row0 row1 : Nat) :
    (drawState hi lo V row0 row1).display.length = 2048 := by
  show (resize [] c_displaySize 0).length = 2048
  unfold resize
  rw [List.length_append, List.length_replicate, List.length_take]
  rfl

theorem instrAt_drawState (hi lo : Nat) (V : Nat → Nat) (row0 row1 : Nat) :
    instrAt (drawState hi lo V row0 row1) hi lo := by
  refine ⟨?_, ?_, ?_⟩
  · show 0x200 + 1 < c_memorySize
    decide
  · show setAt (setAt (setAt (setAt (setAt (setAt powerOn.memory 0x200 hi) 0x201 lo)
      0x202 hi) 0x203 lo) 0x300 row0) 0x301 row1 0x200 = hi
    simp [setAt]
  · show setAt (setAt (setAt (setAt (setAt (setAt powerOn.memory 0x200 hi) 0x201 lo)
      0x202 hi) 0x203 lo) 0x300 row0) 0x301 row1 0x201 = lo
    simp [setAt]

theorem instrAt_drawState_next (hi lo : Nat) (V : Nat → Nat) (row0 row1 : Nat) :
    (drawState hi lo V row0 row1).PC + 3 < 4096 ∧
    (drawState hi lo V row0 row1).memory ((drawState hi lo V row0 row1).PC + 2) = hi ∧
    (drawState hi lo V row0 row1).memory ((drawState hi lo V row0 row1).PC + 3) = lo := by
  refine ⟨?_, ?_, ?_⟩
  · show 0x200 + 3 < 4096
    decide
  · show setAt (setAt (setAt (setAt (setAt (setAt powerOn.memory 0x200 hi) 0x201 lo)
      0x202 hi) 0x203 lo) 0x300 row0) 0x301 row1 0x202 = hi
    simp [setAt]
  · show setAt (setAt (setAt (setAt (setAt (setAt powerOn.memory 0x200 hi) 0x201 lo)
      0x202 hi) 0x203 lo) 0x300 row0) 0x301 row1 0x203 = lo
    simp [setAt]

/-- Witness of C2 as amended: D011 at (63, 0) with the row 0xFF. -/
theorem draw_wraps_linear_witness :
    ∃ t, emulateCycle 0 wrapState = .ok t ∧
      (∀ r c, r < 1 → c < 8 → (wrapState.memory (wrapState.I + r)).testBit (7 - c) = true →
        t.display.getD (pixelPos (wrapState.V 0) (wrapState.V 1) r c) 0
          = wrapState.display.getD (pixelPos (wrapState.V 0) (wrapState.V 1) r c) 0 ^^^ 0xFF ∧
        pixelPos (wrapState.V 0) (wrapState.V 1) r c
          = (wrapState.V 0 + 64 * (wrapState.V 1 + r) + c) % 2048 ∧
        pixelPos (wrapState.V 0) (wrapState.V 1) r c % 64 = (wrapState.V 0 + c) % 64 ∧
        pixelPos (wrapState.V 0) (wrapState.V 1) r c / 64
          = (wrapState.V 1 + r + (wrapState.V 0 + c) / 64) % 32) ∧
      (∀ q, (∀ r c, r < 1 → c < 8 →
          (wrapState.memory (wrapState.I + r)).testBit (7 - c) = true →
          q ≠ pixelPos (wrapState.V 0) (wrapState.V 1) r c) →
        t.display.getD q 0 = wrapState.display.getD q 0) ∧
      (∀ c, 1 ≤ c → c < 8 → pixelPos 63 0 0 c = 64 * 1 + (c - 1)) :=
  draw_wraps_linear 0 wrapState 0 1 1 (by decide) (by decide) (by decide)
    (instrAt_drawState _ _ _ _ _) (by decide) (drawState_display_length _ _ _ _ _)

/-- C2 as stated fails. With D011, (V0, V1) = (63, 0) and the row 0xFF on a blank
framebuffer, the bit of column 1 leaves the cell of row 0, column 0 (index 0)
as it was and turns on the cell of row 1, column 0 (index 64). With DF01 and
VF = 5 the sprite is drawn at column 0, not column 5: the flag is cleared
before it is read as Vx. -/
theorem draw_wrap_not_toroidal :
    instrAt wrapState 0xD0 0x11 ∧ wrapState.V 0 = 63 ∧ wrapState.V 1 = 0 ∧
    (wrapState.memory (wrapState.I + 0)).testBit (7 - 1) = true ∧
    cellOf (.ok wrapState) (64 * ((0 + 0) % 32) + (63 + 1) % 64) = some 0 ∧
    cellOf (emulateCycle 0 wrapState) (64 * ((0 + 0) % 32) + (63 + 1) % 64) = some 0 ∧
    cellOf (.ok wrapState) 64 = some 0 ∧
    cellOf (emulateCycle 0 wrapState) 64 = some 0xFF ∧
    instrAt flagXState 0xDF 0x01 ∧ flagXState.V 0xF = 5 ∧ flagXState.V 0 = 0 ∧
    (flagXState.memory (flagXState.I + 0)).testBit (7 - 0) = true ∧
    cellOf (.ok flagXState) (64 * ((0 + 0) % 32) + (5 + 0) % 64) = some 0 ∧
    cellOf (emulateCycle 0 flagXState) (64 * ((0 + 0) % 32) + (5 + 0) % 64) = some 0 ∧
    cellOf (emulateCycle 0 flagXState) 0 = some 0xFF := by
  refine ⟨instrAt_drawState _ _ _ _ _, rfl, rfl, by decide, by decide!, by decide!,
    by decide!, by decide!, instrAt_drawState _ _ _ _ _, rfl, rfl, by decide, by decide!,
    by decide!, by decide!⟩

/-- Witness of C3: D011 at (63, 0) with the row 0xFF. -/
theorem draw_collision_flag_witness :
    ∃ t, emulateCycle 0 wrapState = .ok t ∧
      ((∃ r c, r < 1 ∧ c < 8 ∧ (wrapState.memory (wrapState.I + r)).testBit (7 - c) = true ∧
          wrapState.display.getD (pixelPos (wrapState.V 0) (wrapState.V 1) r c) 0 = 0xFF) →
        t.V 0xF = 1) ∧
      ((¬ ∃ r c, r < 1 ∧ c < 8 ∧
          (wrapState.memory (wrapState.I + r)).testBit (7 - c) = true ∧
          wrapState.display.getD (pixelPos (wrapState.V 0) (wrapState.V 1) r c) 0 = 0xFF) →
        t.V 0xF = 0) :=
  draw_collision_flag 0 wrapState 0 1 1 (by decide) (by decide) (by decide)
    (instrAt_drawState _ _ _ _ _) (by decide) (drawState_display_length _ _ _ _ _)

/-- Witness of C4 as amended: D011 at 0x200 and 0x202, (V0, V1) = (63, 0). -/
theorem double_draw_cancels_witness :
    ∃ t u, emulateCycle 0 wrapState = .ok t ∧ emulateCycle 0 t = .ok u ∧
      u.display = wrapState.display ∧
      ((∃ r c, r < 1 ∧ c < 8 ∧ (wrapState.memory (wrapState.I + r)).testBit (7 - c) = true) →
        (∀ r c, r < 1 → c < 8 →
          (wrapState.memory (wrapState.I + r)).testBit (7 - c) = true →
          wrapState.display.getD (pixelPos (wrapState.V 0) (wrapState.V 1) r c) 0 = 0) →
        u.V 0xF = 1) :=
  double_draw_cancels 0 0 wrapState 0 1 1 (by decide) (by decide) (by decide)
    (instrAt_drawState _ _ _ _ _) (instrAt_drawState_next _ _ _ _ _) (by decide)
    (drawState_display_length _ _ _ _ _)

/-- C4 as stated fails for X = 0xF. With DF02 at 0x200 and 0x202, all registers
0, the rows 0x80, 0x80 and a blank framebuffer, the first draw turns on the
cells 0 and 64; the second draw collides on its first row, sets VF = 1, and so
draws its second row at column 1: the cell 65 ends on and the cell 64 stays on,
where both were off before the first draw. -/
theorem double_draw_alias :
    instrAt aliasState 0xDF 0x02 ∧
    aliasState.memory (aliasState.PC + 2) = 0xDF ∧
    aliasState.memory (aliasState.PC + 3) = 0x02 ∧
    aliasState.I + 2 ≤ 4096 ∧
    cellOf (.ok aliasState) 64 = some 0 ∧ cellOf (.ok aliasState) 65 = some 0 ∧
    cellOf (twoCycles 0 0 aliasState) 64 = some 0xFF ∧
    cellOf (twoCycles 0 0 aliasState) 65 = some 0xFF := by
  refine ⟨instrAt_drawState _ _ _ _ _, (instrAt_drawState_next _ _ _ _ _).2.1,
    (instrAt_drawState_next _ _ _ _ _).2.2, by decide, by decide!, by decide!, by decide!,
    by decide!⟩

/-! ## FX1E -/

/-- FX1E with X different from 0xF: I = i + v, VF = 1 exactly if i + v > 0xFFF,
and PC advances by 2. -/
theorem index_add_no_alias (rnd : Nat) (s : State) (X : Nat) (hw : WellTyped s) (hX : X < 15)
    (hI : s.I ≤ 0xFFF) (h : instrAt s (0xF0 + X) 0x1E) :
    ∃ t, emulateCycle rnd s = .ok t ∧ t.I = s.I + s.V X ∧
      t.V 0xF = (if s.I + s.V X > 0xFFF then 1 else 0) ∧ t.PC = s.PC + 2 := by
  have hx : (0xF0 + X) % 16 = X := by omega
  have hk : (0xF0 + X) / 16 * 4096 = 0xF000 := by omega
  have hXF : X ≠ 15 := by omega
  have hv := hw.V_byte X (by unfold c_numRegisters; omega)
  have hpc := instrAt_PC h
  have e1 : (s.I + s.V X) % 65536 = s.I + s.V X := by omega
  rw [step_of_instrAt rnd s _ _ h (by omega) (by omega), hk]
  simp [opCodesTable, opCodeFTable, fetched, hx, setAt, flag, hXF, e1]
  omega

/-- C11, the code at X = 0xF, I = 0x300, VF = 7: the flag (0, as 0x307 <= 0xFFF)
is written first and `I += V[X]` then adds the flag, so I stays 0x300 where the
claim has I = 0x307. -/
theorem index_add_reads_flag :
    indexAddState.I = 0x300 ∧ indexAddState.V 0xF = 7 ∧ instrAt indexAddState 0xFF 0x1E ∧
    ∃ t, emulateCycle 0 indexAddState = .ok t ∧ t.V 0xF = 0 ∧ t.I = 0x300 ∧
      t.I ≠ indexAddState.I + indexAddState.V 0xF := by
  refine ⟨rfl, rfl, instrAt_withInstr _ _ _ (by decide), ?_⟩
  rw [step_of_instrAt 0 indexAddState 0xFF 0x1E (instrAt_withInstr _ _ _ (by decide))
    (by decide) (by decide)]
  refine ⟨_, rfl, ?_, ?_, ?_⟩ <;> decide

/-! ## `initialize` -/

theorem fontSet_low_nibble : ∀ a, a < 80 → fontSet.getD a 0 % 16 = 0 := by decide

theorem fontSet_glyph : ∀ d, d < 16 → ∀ k, k < 5 →
    fontSet.getD (5 * d + k) 0 = ((fontSet.drop (5 * d)).take 5).getD k 0 := by decide

/-- C14: for every prior state, after initialize V0..VF are all 0, I = 0,
PC = 0x200, both timers are 0, the stack is empty, the draw-needed flag is true,
memory[0..79] is the 80-byte font table (the glyph of hex digit d at 5d..5d+4,
each byte with its low 4 bits zero) and memory[80..4095] is all 0. -/
theorem initialize_power_on_state (s : State) :
    (∀ i, i < 16 → (initializeChip8 s).V i = 0) ∧
    (initializeChip8 s).I = 0 ∧ (initializeChip8 s).PC = 0x200 ∧
    (initializeChip8 s).delayTimer = 0 ∧ (initializeChip8 s).soundTimer = 0 ∧
    (initializeChip8 s).stack = [] ∧ (initializeChip8 s).drawFlag = true ∧
    fontSet.length = 80 ∧
    (∀ a, a < 80 → (initializeChip8 s).memory a = fontSet.getD a 0) ∧
    (∀ d, d < 16 → ∀ k, k < 5 →
      (initializeChip8 s).memory (5 * d + k) = ((fontSet.drop (5 * d)).take 5).getD k 0) ∧
    (∀ a, a < 80 → (initializeChip8 s).memory a % 16 = 0) ∧
    (∀ a, 80 ≤ a → a < 4096 → (initializeChip8 s).memory a = 0) := by
  have hm : ∀ a, a < 80 → (initializeChip8 s).memory a = fontSet.getD a 0 := by
    intro a ha
    show (if a < c_fontSetSize then fontSet.getD a 0 else 0) = _
    rw [if_pos (show a < c_fontSetSize from ha)]
  refine ⟨fun _ _ => rfl, rfl, rfl, rfl, rfl, rfl, rfl, rfl, hm, ?_, ?_, ?_⟩
  · intro d hd k hk
    rw [hm _ (by omega)]
    exact fontSet_glyph d hd k hk
  · intro a ha
    rw [hm a ha]
    exact fontSet_low_nibble a ha
  · intro a ha _
    show (if a < c_fontSetSize then fontSet.getD a 0 else 0) = 0
    rw [if_neg (show ¬ a < c_fontSetSize by unfold c_fontSetSize; omega)]

/-! ## `updateTimers` -/

/-- C16: updateTimers, called with the sound request false, sets the delay
timer to d - 1 if d > 0 and leaves it 0 otherwise, does the same to the sound
timer, reports the sound request exactly when the sound timer was 1, and
changes nothing else. -/
theorem updateTimers_tick (s : State) :
    (updateTimers false s).1.delayTimer
      = (if s.delayTimer > 0 then s.delayTimer - 1 else 0) ∧
    (updateTimers false s).1.soundTimer
      = (if s.soundTimer > 0 then s.soundTimer - 1 else 0) ∧
    ((updateTimers false s).2 = true ↔ s.soundTimer = 1) ∧
    (updateTimers false s).1.PC = s.PC ∧ (updateTimers false s).1.I = s.I ∧
    (updateTimers false s).1.V = s.V ∧ (updateTimers false s).1.memory = s.memory ∧
    (updateTimers false s).1.stack = s.stack ∧ (updateTimers false s).1.keys = s.keys ∧
    (updateTimers false s).1.display = s.display ∧
    (updateTimers false s).1.drawFlag = s.drawFlag := by
  unfold updateTimers
  by_cases hd : s.delayTimer > 0 <;> by_cases hs : s.soundTimer > 0 <;>
    by_cases h1 : s.soundTimer = 1 <;> simp [hd, hs, h1] <;> omega

/-! ## 00E0 -/

/-- C17: for every state whose instruction at PC is 00E0, after one cycle every
framebuffer cell is 0 (the number of cells is unchanged), the draw-needed flag
is true, PC has advanced by 2, and V, I, memory, stack and timers are
unchanged. -/
theorem clear_screen (rnd : Nat) (s : State) (h : instrAt s 0x00 0xE0) :
    ∃ t, emulateCycle rnd s = .ok t ∧
      (∀ px ∈ t.display, px = 0) ∧ t.display.length = s.display.length ∧
      t.drawFlag = true ∧ t.PC = s.PC + 2 ∧ t.V = s.V ∧ t.I = s.I ∧
      t.memory = s.memory ∧ t.stack = s.stack ∧ t.delayTimer = s.delayTimer ∧
      t.soundTimer = s.soundTimer := by
  have hpc := instrAt_PC h
  rw [step_of_instrAt rnd s _ _ h (by omega) (by omega)]
  simp [opCodesTable, opCode0Table, fetched, Except.map]
  omega

/-- Witness of C17: 00E0 at 0x200 in the power-on state. -/
theorem clear_screen_witness :
    ∃ t, emulateCycle 0 (sampleState 0x00 0xE0) = .ok t ∧
      (∀ px ∈ t.display, px = 0) ∧
      t.display.length = (sampleState 0x00 0xE0).display.length ∧
      t.drawFlag = true ∧ t.PC = (sampleState 0x00 0xE0).PC + 2 ∧
      t.V = (sampleState 0x00 0xE0).V ∧ t.I = (sampleState 0x00 0xE0).I ∧
      t.memory = (sampleState 0x00 0xE0).memory ∧
      t.stack = (sampleState 0x00 0xE0).stack ∧
      t.delayTimer = (sampleState 0x00 0xE0).delayTimer ∧
      t.soundTimer = (sampleState 0x00 0xE0).soundTimer :=
  clear_screen 0 (sampleState 0x00 0xE0) (instrAt_sampleState 0x00 0xE0)

/-! ## FX0A -/

theorem find?_range_none (p : Nat → Bool) (n : Nat) (h : ∀ k, k < n → p k = false) :
    (List.range n).find? p = none := by
  rw [List.find?_eq_none]
  intro x hx
  rw [h x (List.mem_range.mp hx)]
  decide

theorem find?_range_some (p : Nat → Bool) (n k : Nat) (hk : k < n) (hp : p k = true)
    (hmin : ∀ j, j < k → p j = false) : (List.range n).find? p = some k := by
  induction n with
  | zero => omega
  | succ n ih =>
    rw [List.range_succ, List.find?_append]
    by_cases hkn : k = n
    · subst hkn
      rw [find?_range_none p k hmin]
      simp [hp]
    · rw [ih (by omega)]
      rfl

/-- C18: on FX0A, if none of the 16 keys is pressed the cycle leaves PC, V, I,
memory, stack, timers, framebuffer and draw flag unchanged; if a key is
pressed, Vx becomes the smallest index k with key[k] pressed, PC advances by 2
and nothing else changes. -/
theorem wait_for_key (rnd : Nat) (s : State) (X : Nat) (hX : X < 16)
    (h : instrAt s (0xF0 + X) 0x0A) :
    ((∀ k, k < 16 → s.keys k = false) →
      ∃ t, emulateCycle rnd s = .ok t ∧ t.PC = s.PC ∧ t.V = s.V ∧ sameButPC s t) ∧
    (∀ k, k < 16 → s.keys k = true → (∀ j, j < k → s.keys j = false) →
      ∃ t, emulateCycle rnd s = .ok t ∧ t.V X = k ∧ (∀ i, i ≠ X → t.V i = s.V i) ∧
        t.PC = s.PC + 2 ∧ t.I = s.I ∧ t.memory = s.memory ∧ t.stack = s.stack ∧
        t.delayTimer = s.delayTimer ∧ t.soundTimer = s.soundTimer ∧ t.keys = s.keys ∧
        t.display = s.display ∧ t.drawFlag = s.drawFlag) := by
  have hx : (0xF0 + X) % 16 = X := by omega
  have hk : (0xF0 + X) / 16 * 4096 = 0xF000 := by omega
  have hpc := instrAt_PC h
  constructor
  · intro hnone
    have hf := find?_range_none (fun k => s.keys k) 16 hnone
    rw [step_of_instrAt rnd s _ _ h (by omega) (by omega), hk]
    simp only [opCodesTable, opCodeFTable, fetched, c_numKeys]
    simp [hf, sameButPC]
  · intro k hk16 hkey hmin
    have hf := find?_range_some (fun k => s.keys k) 16 k hk16 hkey hmin
    have e1 : k % 256 = k := by omega
    rw [step_of_instrAt rnd s _ _ h (by omega) (by omega), hk]
    simp only [opCodesTable, opCodeFTable, fetched, c_numKeys]
    simp [hf, hx, setAt, e1]
    refine ⟨?_, by omega⟩
    intro i hi
    simp [hi]

/-- Witness of C18: F1 0A with no key held, and with the keys 3 and 7 held. -/
theorem wait_for_key_witness :
    (∃ t, emulateCycle 0 (sampleState 0xF1 0x0A) = .ok t ∧
      t.PC = (sampleState 0xF1 0x0A).PC ∧ t.V = (sampleState 0xF1 0x0A).V ∧
      sameButPC (sampleState 0xF1 0x0A) t) ∧
    (∃ t, emulateCycle 0 heldKeysState = .ok t ∧ t.V 1 = 3 ∧
      (∀ i, i ≠ 1 → t.V i = heldKeysState.V i) ∧
      t.PC = heldKeysState.PC + 2 ∧ t.I = heldKeysState.I ∧
      t.memory = heldKeysState.memory ∧ t.stack = heldKeysState.stack ∧
      t.delayTimer = heldKeysState.delayTimer ∧ t.soundTimer = heldKeysState.soundTimer ∧
      t.keys = heldKeysState.keys ∧ t.display = heldKeysState.display ∧
      t.drawFlag = heldKeysState.drawFlag) :=
  ⟨(wait_for_key 0 (sampleState 0xF1 0x0A) 1 (by decide)
      (instrAt_sampleState 0xF1 0x0A)).1 (fun _ _ => rfl),
   (wait_for_key 0 heldKeysState 1 (by decide) (instrAt_sampleState 0xF1 0x0A)).2 3
      (by decide) rfl (by decide)⟩

/-! ## Which opcodes throw `std::bad_function_call` -/

theorem map_eq_error {α β : Type} (f : α → β) (x : Except Fault α) (e : Fault) :
    x.map f = .error e ↔ x = .error e := by
  cases x <;> simp [Except.map]

theorem map_eq_ok {α β : Type} (f : α → β) (x : Except Fault α) (t : β) :
    x.map f = .ok t ↔ ∃ u, x = .ok u ∧ f u = t := by
  cases x <;> simp [Except.map]

theorem foldlM_ne_error {α β : Type} (f : α → β → Except Fault α) (e : Fault)
    (hf : ∀ a x, f a x ≠ .error e) (l : List β) (a : α) : l.foldlM f a ≠ .error e := by
  induction l generalizing a with
  | nil => simp [pure, Except.pure]
  | cons x l ih =>
    rw [List.foldlM_cons]
    cases hfx : f a x with
    | error e2 =>
      intro h
      have : e2 = e := by
        simpa [bind, Except.bind] using h
      exact hf a x (this ▸ hfx)
    | ok b => exact ih b

theorem drawPixel_ne_bad (row base : Nat) (s : State) (x : Nat) :
    drawPixel row base s x ≠ .error .badFunctionCall := by
  unfold drawPixel
  split
  · dsimp only
    split <;> simp
  · simp

theorem drawRow_ne_bad (s : State) (y : Nat) : drawRow s y ≠ .error .badFunctionCall := by
  unfold drawRow
  split
  · exact foldlM_ne_error _ _ (fun a x => drawPixel_ne_bad _ _ a x) _ _
  · simp

theorem draw_ne_bad (s : State) : draw s ≠ .error .badFunctionCall :=
  foldlM_ne_error _ _ drawRow_ne_bad _ _

theorem copyVToMemory_ne_bad (n : Nat) (s : State) :
    copyVToMemory n s ≠ .error .badFunctionCall := by
  apply foldlM_ne_error
  intro a x
  split <;> simp

theorem copyMemoryToV_ne_bad (n : Nat) (s : State) :
    copyMemoryToV n s ≠ .error .badFunctionCall := by
  apply foldlM_ne_error
  intro a x
  split <;> simp

theorem opCode0Table_bad (key : Nat) (s : State) :
    opCode0Table key s = .error .badFunctionCall ↔ key ≠ 0xE0 ∧ key ≠ 0xEE := by
  unfold opCode0Table
  by_cases h1 : key = 0xE0
  · simp [h1]
  · by_cases h2 : key = 0xEE
    · rw [if_neg h1, if_pos h2]
      cases s.stack <;> simp [h2]
    · simp [h1, h2]

theorem opCode8Table_bad (key : Nat) (s : State) :
    opCode8Table key s = .error .badFunctionCall
      ↔ key ≠ 0 ∧ key ≠ 1 ∧ key ≠ 2 ∧ key ≠ 3 ∧ key ≠ 4 ∧ key ≠ 5 ∧ key ≠ 6 ∧ key ≠ 7
          ∧ key ≠ 0xE := by
  unfold opCode8Table
  by_cases h0 : key = 0
  · simp [h0]
  by_cases h1 : key = 1
  · simp [h1]
  by_cases h2 : key = 2
  · simp [h2]
  by_cases h3 : key = 3
  · simp [h3]
  by_cases h4 : key = 4
  · simp [h4]
  by_cases h5 : key = 5
  · simp [h5]
  by_cases h6 : key = 6
  · simp [h6]
  by_cases h7 : key = 7
  · simp [h7]
  by_cases h8 : key = 0xE
  · simp [h8]
  simp [h0, h1, h2, h3, h4, h5, h6, h7, h8]

theorem opCodeETable_bad (key : Nat) (s : State) :
    opCodeETable key s = .error .badFunctionCall ↔ key ≠ 0x9E ∧ key ≠ 0xA1 := by
  unfold opCodeETable
  split_ifs <;> simp_all

theorem opCodeFTable_bad (key : Nat) (s : State) :
    opCodeFTable key s = .error .badFunctionCall
      ↔ key ≠ 0x07 ∧ key ≠ 0x0A ∧ key ≠ 0x15 ∧ key ≠ 0x18 ∧ key ≠ 0x1E ∧ key ≠ 0x29
          ∧ key ≠ 0x33 ∧ key ≠ 0x55 ∧ key ≠ 0x65 := by
  unfold opCodeFTable
  by_cases h1 : key = 0x07
  · simp [h1]
  by_cases h2 : key = 0x0A
  · simp only [h2]
    cases (List.range c_numKeys).find? (fun k => s.keys k) <;> simp
  by_cases h3 : key = 0x15
  · simp [h3]
  by_cases h4 : key = 0x18
  · simp [h4]
  by_cases h5 : key = 0x1E
  · simp [h5]
  by_cases h6 : key = 0x29
  · simp [h6]
  by_cases h7 : key = 0x33
  · simp only [h7]
    by_cases hI : s.I + 2 < c_memorySize <;> simp [hI]
  by_cases h8 : key = 0x55
  · simp only [h8]
    simp [map_eq_error, copyVToMemory_ne_bad]
  by_cases h9 : key = 0x65
  · simp only [h9]
    simp [map_eq_error, copyMemoryToV_ne_bad]
  simp [h1, h2, h3, h4, h5, h6, h7, h8, h9]

theorem opCodesTable_bad (rnd T : Nat) (hT : T < 16) (s : State) :
    opCodesTable rnd (T * 4096) s = .error .badFunctionCall
      ↔ (T = 0x0 ∧ opCode0Table s.NN s = .error .badFunctionCall) ∨
        (T = 0x8 ∧ opCode8Table s.N s = .error .badFunctionCall) ∨
        (T = 0xE ∧ opCodeETable s.NN s = .error .badFunctionCall) ∨
        (T = 0xF ∧ opCodeFTable s.NN s = .error .badFunctionCall) := by
  interval_cases T <;> simp [opCodesTable, map_eq_error, draw_ne_bad]

theorem hasTableEntry_false (hi lo : Nat) :
    hasTableEntry hi lo = false
      ↔ (hi / 16 = 0x0 ∧ lo ≠ 0xE0 ∧ lo ≠ 0xEE) ∨
        (hi / 16 = 0x8 ∧ lo % 16 ≠ 0 ∧ lo % 16 ≠ 1 ∧ lo % 16 ≠ 2 ∧ lo % 16 ≠ 3 ∧
          lo % 16 ≠ 4 ∧ lo % 16 ≠ 5 ∧ lo % 16 ≠ 6 ∧ lo % 16 ≠ 7 ∧ lo % 16 ≠ 0xE) ∨
        (hi / 16 = 0xE ∧ lo ≠ 0x9E ∧ lo ≠ 0xA1) ∨
        (hi / 16 = 0xF ∧ lo ≠ 0x07 ∧ lo ≠ 0x0A ∧ lo ≠ 0x15 ∧ lo ≠ 0x18 ∧ lo ≠ 0x1E ∧
          lo ≠ 0x29 ∧ lo ≠ 0x33 ∧ lo ≠ 0x55 ∧ lo ≠ 0x65) := by
  unfold hasTableEntry
  by_cases h0 : hi / 16 = 0x0
  · simp [h0]
  by_cases h8 : hi / 16 = 0x8
  · simp [h8, and_assoc]
  by_cases hE : hi / 16 = 0xE
  · simp [hE]
  by_cases hF : hi / 16 = 0xF
  · simp [hF, and_assoc]
  simp [h0, h8, hE, hF]

theorem emulateCycle_bad (rnd : Nat) (s : State) (hi lo : Nat) (hhi : hi < 256)
    (hlo : lo < 256) (h : instrAt s hi lo) :
    emulateCycle rnd s = .error .badFunctionCall ↔ hasTableEntry hi lo = false := by
  rw [step_of_instrAt rnd s hi lo h hhi hlo,
    opCodesTable_bad rnd (hi / 16) (by omega) (fetched s hi lo), hasTableEntry_false,
    opCode0Table_bad, opCode8Table_bad, opCodeETable_bad, opCodeFTable_bad]
  rfl

/-- C12, as amended: one cycle ends in the error `std::bad_function_call` exactly
for the opcodes that have no table entry (family 0, E or F with NN not in the
family's table, family 8 with N not in its table); so a cycle succeeds only on
opcodes with a table entry; every opcode that matches a pattern of the
instruction table has an entry; and the entries are selected by the top nibble
and NN alone: 5XYN skips exactly if Vx == Vy and 9XYN exactly if Vx != Vy
whatever N is, 0x0NE0 clears the screen and 0x0NEE returns (PC = top + 2)
whatever N is, each changing nothing else, as 5XY0, 9XY0, 00E0 and 00EE do. -/
theorem unknown_opcode_error (rnd : Nat) (s : State) (hi lo : Nat) (hhi : hi < 256)
    (hlo : lo < 256) (h : instrAt s hi lo) :
    (emulateCycle rnd s = .error .badFunctionCall ↔ hasTableEntry hi lo = false) ∧
    ((∃ t, emulateCycle rnd s = .ok t) → hasTableEntry hi lo = true) ∧
    (matchesSpecPattern hi lo = true → hasTableEntry hi lo = true) ∧
    (hi / 16 = 0x5 → skipsWhen rnd s (s.V (hi % 16) = s.V (lo / 16))) ∧
    (hi / 16 = 0x9 → skipsWhen rnd s (s.V (hi % 16) ≠ s.V (lo / 16))) ∧
    (hi / 16 = 0x0 → lo = 0xE0 →
      ∃ t, emulateCycle rnd s = .ok t ∧
        (∀ px ∈ t.display, px = 0) ∧ t.display.length = s.display.length ∧
        t.drawFlag = true ∧ t.PC = s.PC + 2 ∧ t.V = s.V ∧ t.I = s.I ∧
        t.memory = s.memory ∧ t.stack = s.stack ∧ t.delayTimer = s.delayTimer ∧
        t.soundTimer = s.soundTimer ∧ t.keys = s.keys) ∧
    (hi / 16 = 0x0 → lo = 0xEE → ∀ top rest, s.stack = top :: rest →
      ∃ t, emulateCycle rnd s = .ok t ∧ t.PC = (top + 2) % 65536 ∧ t.stack = rest ∧
        t.V = s.V ∧ t.I = s.I ∧ t.memory = s.memory ∧ t.delayTimer = s.delayTimer ∧
        t.soundTimer = s.soundTimer ∧ t.keys = s.keys ∧ t.display = s.display ∧
        t.drawFlag = s.drawFlag) := by
  have hb := emulateCycle_bad rnd s hi lo hhi hlo h
  have hstep := step_of_instrAt rnd s hi lo h hhi hlo
  have hpc := instrAt_PC h
  refine ⟨hb, ?_, ?_, ?_, ?_, ?_, ?_⟩
  · rintro ⟨t, ht⟩
    cases he : hasTableEntry hi lo with
    | true => rfl
    | false =>
      rw [hb.mpr he] at ht
      cases ht
  · unfold matchesSpecPattern
    intro hm
    by_cases h0 : hi / 16 = 0x0
    · rw [if_pos h0] at hm
      unfold hasTableEntry
      rw [if_pos h0]
      simp only [Bool.and_eq_true] at hm
      exact hm.2
    · rw [if_neg h0] at hm
      by_cases h5 : (hi / 16 = 0x5 || hi / 16 = 0x9) = true
      · unfold hasTableEntry
        simp at h5
        rcases h5 with h5 | h5 <;> simp [h5]
      · rw [if_neg h5] at hm
        exact hm
  · intro h5
    unfold skipsWhen
    rw [hstep, h5]
    simp [opCodesTable, fetched, sameButPC]
  · intro h9
    unfold skipsWhen
    rw [hstep, h9]
    simp [opCodesTable, fetched, sameButPC]
  · intro h0 hE0
    rw [hstep, h0, hE0]
    simp [opCodesTable, opCode0Table, fetched, Except.map]
    omega
  · intro h0 hEE top rest hs
    rw [hstep, h0, hEE]
    simp [opCodesTable, opCode0Table, fetched, Except.map, hs]

/-- Witness of C12 as amended: 8128 (8XY8) has no entry and ends in the error;
5121 and 9121 skip as 5120 and 9120, 01E0 clears the screen and 01EE returns. -/
theorem unknown_opcode_error_witness :
    ((emulateCycle 0 (sampleState 0x81 0x28) = .error .badFunctionCall
        ↔ hasTableEntry 0x81 0x28 = false) ∧
      ((∃ t, emulateCycle 0 (sampleState 0x81 0x28) = .ok t) →
        hasTableEntry 0x81 0x28 = true) ∧
      (matchesSpecPattern 0x81 0x28 = true → hasTableEntry 0x81 0x28 = true)) ∧
    skipsWhen 0 (sampleState 0x51 0x21)
      ((sampleState 0x51 0x21).V (0x51 % 16) = (sampleState 0x51 0x21).V (0x21 / 16)) ∧
    skipsWhen 0 (sampleState 0x91 0x21)
      ((sampleState 0x91 0x21).V (0x91 % 16) ≠ (sampleState 0x91 0x21).V (0x21 / 16)) ∧
    (∃ t, emulateCycle 0 (sampleState 0x01 0xE0) = .ok t ∧
      (∀ px ∈ t.display, px = 0) ∧
      t.display.length = (sampleState 0x01 0xE0).display.length ∧
      t.drawFlag = true ∧ t.PC = (sampleState 0x01 0xE0).PC + 2 ∧
      t.V = (sampleState 0x01 0xE0).V ∧ t.I = (sampleState 0x01 0xE0).I ∧
      t.memory = (sampleState 0x01 0xE0).memory ∧
      t.stack = (sampleState 0x01 0xE0).stack ∧
      t.delayTimer = (sampleState 0x01 0xE0).delayTimer ∧
      t.soundTimer = (sampleState 0x01 0xE0).soundTimer ∧
      t.keys = (sampleState 0x01 0xE0).keys) ∧
    (∃ t, emulateCycle 0 retFamilyState = .ok t ∧ t.PC = (0x300 + 2) % 65536 ∧
      t.stack = [] ∧ t.V = retFamilyState.V ∧ t.I = retFamilyState.I ∧
      t.memory = retFamilyState.memory ∧ t.delayTimer = retFamilyState.delayTimer ∧
      t.soundTimer = retFamilyState.soundTimer ∧ t.keys = retFamilyState.keys ∧
      t.display = retFamilyState.display ∧ t.drawFlag = retFamilyState.drawFlag) :=
  ⟨⟨(unknown_opcode_error 0 (sampleState 0x81 0x28) 0x81 0x28 (by decide) (by decide)
      (instrAt_sampleState 0x81 0x28)).1,
    (unknown_opcode_error 0 (sampleState 0x81 0x28) 0x81 0x28 (by decide) (by decide)
      (instrAt_sampleState 0x81 0x28)).2.1,
    (unknown_opcode_error 0 (sampleState 0x81 0x28) 0x81 0x28 (by decide) (by decide)
      (instrAt_sampleState 0x81 0x28)).2.2.1⟩,
   (unknown_opcode_error 0 (sampleState 0x51 0x21) 0x51 0x21 (by decide) (by decide)
      (instrAt_sampleState 0x51 0x21)).2.2.2.1 (by decide),
   (unknown_opcode_error 0 (sampleState 0x91 0x21) 0x91 0x21 (by decide) (by decide)
      (instrAt_sampleState 0x91 0x21)).2.2.2.2.1 (by decide),
   (unknown_opcode_error 0 (sampleState 0x01 0xE0) 0x01 0xE0 (by decide) (by decide)
      (instrAt_sampleState 0x01 0xE0)).2.2.2.2.2.1 (by decide) rfl,
   (unknown_opcode_error 0 retFamilyState 0x01 0xEE (by decide) (by decide)
      (instrAt_sampleState 0x01 0xEE)).2.2.2.2.2.2 (by decide) rfl 0x300 [] rfl⟩

/-- C12 as stated fails: 5121 (5XY1) and 01E0 match no pattern of the
instruction table, yet the cycle succeeds on them; 5121 runs as 5120 (V1 = 5 and
V2 = 9 differ, PC advances by 2) and 01E0 as 00E0. -/
theorem unknown_opcode_executes :
    matchesSpecPattern 0x51 0x21 = false ∧ instrAt (sampleState 0x51 0x21) 0x51 0x21 ∧
    (∃ t, emulateCycle 0 (sampleState 0x51 0x21) = .ok t ∧ t.PC = 0x202) ∧
    matchesSpecPattern 0x01 0xE0 = false ∧ instrAt (sampleState 0x01 0xE0) 0x01 0xE0 ∧
    (∃ t, emulateCycle 0 (sampleState 0x01 0xE0) = .ok t ∧ t.PC = 0x202 ∧
      t.drawFlag = true) := by
  refine ⟨by decide, instrAt_sampleState _ _, ?_, by decide, instrAt_sampleState _ _, ?_⟩
  · rw [step_of_instrAt 0 _ 0x51 0x21 (instrAt_sampleState _ _) (by decide) (by decide)]
    exact ⟨_, rfl, by decide⟩
  · rw [step_of_instrAt 0 _ 0x01 0xE0 (instrAt_sampleState _ _) (by decide) (by decide)]
    exact ⟨_, rfl, by decide, rfl⟩

/-! ## What one cycle can do to the stack and to the framebuffer -/

theorem foldlM_invariant {α β : Type} (P : α → Prop) (f : α → β → Except Fault α)
    (hf : ∀ a x b, P a → f a x = .ok b → P b) (l : List β) (a b : α) (ha : P a)
    (h : l.foldlM f a = .ok b) : P b := by
  induction l generalizing a with
  | nil =>
    have : a = b := by simpa [pure, Except.pure] using h
    exact this ▸ ha
  | cons x l ih =>
    rw [List.foldlM_cons] at h
    cases hfx : f a x with
    | error e =>
      rw [hfx] at h
      cases h
    | ok c =>
      rw [hfx, ok_bind] at h
      exact ih c (hf a x c ha hfx) h

theorem displayOK_set (d : List Nat) (p px : Nat) (hd : DisplayOK d) (hpx : d[p]? = some px) :
    DisplayOK (d.set p (px ^^^ 0xFF)) := by
  refine ⟨by rw [List.length_set]; exact hd.1, ?_⟩
  intro y hy
  rcases List.mem_or_eq_of_mem_set hy with h | h
  · exact hd.2 y h
  · rcases hd.2 px (List.getElem?_mem hpx) with h0 | h1
    · right
      rw [h, h0]
      rfl
    · left
      rw [h, h1]
      rfl

theorem drawPixel_frame (row base : Nat) (s0 a : State) (x : Nat) (b : State)
    (ha : a.stack = s0.stack ∧ (DisplayOK s0.display → DisplayOK a.display))
    (h : drawPixel row base a x = .ok b) :
    b.stack = s0.stack ∧ (DisplayOK s0.display → DisplayOK b.display) := by
  unfold drawPixel at h
  split at h
  · dsimp only at h
    split at h
    · cases h
    · rename_i px hpx
      injection h with h
      subst h
      exact ⟨ha.1, fun h0 => displayOK_set _ _ _ (ha.2 h0) hpx⟩
  · injection h with h
    subst h
    exact ha

theorem drawRow_frame (s0 a : State) (y : Nat) (b : State)
    (ha : a.stack = s0.stack ∧ (DisplayOK s0.display → DisplayOK a.display))
    (h : drawRow a y = .ok b) :
    b.stack = s0.stack ∧ (DisplayOK s0.display → DisplayOK b.display) := by
  unfold drawRow at h
  split at h
  · exact foldlM_invariant
      (fun u => u.stack = s0.stack ∧ (DisplayOK s0.display → DisplayOK u.display))
      _ (fun u x v hu hv => drawPixel_frame _ _ s0 u x v hu hv) _ a b ha h
  · cases h

theorem draw_frame (s t : State) (h : draw s = .ok t) :
    t.stack = s.stack ∧ (DisplayOK s.display → DisplayOK t.display) :=
  foldlM_invariant
    (fun u => u.stack = s.stack ∧ (DisplayOK s.display → DisplayOK u.display))
    _ (fun u y v hu hv => drawRow_frame s u y v hu hv) _ _ t ⟨rfl, fun h0 => h0⟩ h

theorem copyVToMemory_frame (n : Nat) (s t : State) (h : copyVToMemory n s = .ok t) :
    t.stack = s.stack ∧ t.display = s.display := by
  refine foldlM_invariant (fun u => u.stack = s.stack ∧ u.display = s.display) _ ?_ _ s t
    ⟨rfl, rfl⟩ h
  intro a x b ha hb
  split at hb
  · injection hb with hb
    subst hb
    exact ha
  · cases hb

theorem copyMemoryToV_frame (n : Nat) (s t : State) (h : copyMemoryToV n s = .ok t) :
    t.stack = s.stack ∧ t.display = s.display := by
  refine foldlM_invariant (fun u => u.stack = s.stack ∧ u.display = s.display) _ ?_ _ s t
    ⟨rfl, rfl⟩ h
  intro a x b ha hb
  split at hb
  · injection hb with hb
    subst hb
    exact ha
  · cases hb

theorem displayOK_clear (d : List Nat) (hd : DisplayOK d) : DisplayOK (d.map (fun _ => 0)) := by
  refine ⟨by rw [List.length_map]; exact hd.1, ?_⟩
  intro y hy
  left
  obtain ⟨_, _, e⟩ := List.mem_map.mp hy
  exact e.symm

theorem opCode0Table_frame (key : Nat) (s t : State) (h : opCode0Table key s = .ok t) :
    t.stack.length ≤ s.stack.length ∧ (DisplayOK s.display → DisplayOK t.display) := by
  unfold opCode0Table at h
  split at h
  · injection h with h
    subst h
    exact ⟨Nat.le_refl _, displayOK_clear _⟩
  · split at h
    · split at h
      · cases h
      · rename_i top rest hs
        injection h with h
        subst h
        refine ⟨?_, fun h0 => h0⟩
        show rest.length ≤ s.stack.length
        rw [hs]
        exact Nat.le_succ _
    · cases h

theorem opCode8Table_frame (key : Nat) (s t : State) (h : opCode8Table key s = .ok t) :
    t.stack = s.stack ∧ t.display = s.display := by
  unfold opCode8Table at h
  by_cases h0 : key = 0x0000
  · rw [if_pos h0] at h
    cases h
    exact ⟨rfl, rfl⟩
  rw [if_neg h0] at h
  by_cases h1 : key = 0x0001
  · rw [if_pos h1] at h
    cases h
    exact ⟨rfl, rfl⟩
  rw [if_neg h1] at h
  by_cases h2 : key = 0x0002
  · rw [if_pos h2] at h
    cases h
    exact ⟨rfl, rfl⟩
  rw [if_neg h2] at h
  by_cases h3 : key = 0x0003
  · rw [if_pos h3] at h
    cases h
    exact ⟨rfl, rfl⟩
  rw [if_neg h3] at h
  by_cases h4 : key = 0x0004
  · rw [if_pos h4] at h
    cases h
    exact ⟨rfl, rfl⟩
  rw [if_neg h4] at h
  by_cases h5 : key = 0x0005
  · rw [if_pos h5] at h
    cases h
    exact ⟨rfl, rfl⟩
  rw [if_neg h5] at h
  by_cases h6 : key = 0x0006
  · rw [if_pos h6] at h
    cases h
    exact ⟨rfl, rfl⟩
  rw [if_neg h6] at h
  by_cases h7 : key = 0x0007
  · rw [if_pos h7] at h
    cases h
    exact ⟨rfl, rfl⟩
  rw [if_neg h7] at h
  by_cases h8 : key = 0x000E
  · rw [if_pos h8] at h
    cases h
    exact ⟨rfl, rfl⟩
  rw [if_neg h8] at h
  cases h

theorem opCodeETable_frame (key : Nat) (s t : State) (h : opCodeETable key s = .ok t) :
    t.stack = s.stack ∧ t.display = s.display := by
  unfold opCodeETable at h
  split_ifs at h <;> cases h <;> exact ⟨rfl, rfl⟩

theorem opCodeFTable_frame (key : Nat) (s t : State) (h : opCodeFTable key s = .ok t) :
    t.stack = s.stack ∧ t.display = s.display := by
  unfold opCodeFTable at h
  by_cases h1 : key = 0x07
  · rw [if_pos h1] at h
    injection h with h
    subst h
    exact ⟨rfl, rfl⟩
  rw [if_neg h1] at h
  by_cases h2 : key = 0x0A
  · rw [if_pos h2] at h
    split at h <;> (injection h with h; subst h; exact ⟨rfl, rfl⟩)
  rw [if_neg h2] at h
  by_cases h3 : key = 0x15
  · rw [if_pos h3] at h
    injection h with h
    subst h
    exact ⟨rfl, rfl⟩
  rw [if_neg h3] at h
  by_cases h4 : key = 0x18
  · rw [if_pos h4] at h
    injection h with h
    subst h
    exact ⟨rfl, rfl⟩
  rw [if_neg h4] at h
  by_cases h5 : key = 0x1E
  · rw [if_pos h5] at h
    injection h with h
    subst h
    exact ⟨rfl, rfl⟩
  rw [if_neg h5] at h
  by_cases h6 : key = 0x29
  · rw [if_pos h6] at h
    injection h with h
    subst h
    exact ⟨rfl, rfl⟩
  rw [if_neg h6] at h
  by_cases h7 : key = 0x33
  · rw [if_pos h7] at h
    split at h
    · injection h with h
      subst h
      exact ⟨rfl, rfl⟩
    · cases h
  rw [if_neg h7] at h
  by_cases h8 : key = 0x55
  · rw [if_pos h8, map_eq_ok] at h
    obtain ⟨u, hu, rfl⟩ := h
    exact copyVToMemory_frame _ s u hu
  rw [if_neg h8] at h
  by_cases h9 : key = 0x65
  · rw [if_pos h9, map_eq_ok] at h
    obtain ⟨u, hu, rfl⟩ := h
    exact copyMemoryToV_frame _ s u hu
  rw [if_neg h9] at h
  cases h

theorem opCodesTable_frame (rnd T : Nat) (hT : T < 16) (s t : State)
    (h : opCodesTable rnd (T * 4096) s = .ok t) :
    t.stack.length ≤ s.stack.length + 1 ∧ (DisplayOK s.display → DisplayOK t.display) := by
  have hcases : T = 0 ∨ T = 8 ∨ T = 13 ∨ T = 14 ∨ T = 15 ∨
      (T ≠ 0 ∧ T ≠ 8 ∧ T ≠ 13 ∧ T ≠ 14 ∧ T ≠ 15) := by omega
  rcases hcases with rfl | rfl | rfl | rfl | rfl | hne
  · have e : opCodesTable rnd (0 * 4096) s
        = (opCode0Table s.NN s).map (fun t => { t with PC := (t.PC + 2) % 65536 }) := by
      simp [opCodesTable]
    rw [e, map_eq_ok] at h
    obtain ⟨u, hu, rfl⟩ := h
    have := opCode0Table_frame _ s u hu
    exact ⟨Nat.le_succ_of_le this.1, this.2⟩
  · have e : opCodesTable rnd (8 * 4096) s
        = (opCode8Table s.N s).map (fun t => { t with PC := (t.PC + 2) % 65536 }) := by
      simp [opCodesTable]
    rw [e, map_eq_ok] at h
    obtain ⟨u, hu, rfl⟩ := h
    have := opCode8Table_frame _ s u hu
    exact ⟨by show u.stack.length ≤ _; rw [this.1]; exact Nat.le_succ _,
      fun h0 => by show DisplayOK u.display; rw [this.2]; exact h0⟩
  · have e : opCodesTable rnd (13 * 4096) s
        = (draw s).map (fun t => { t with drawFlag := true, PC := (t.PC + 2) % 65536 }) := by
      simp [opCodesTable]
    rw [e, map_eq_ok] at h
    obtain ⟨u, hu, rfl⟩ := h
    have := draw_frame s u hu
    exact ⟨by show u.stack.length ≤ _; rw [this.1]; exact Nat.le_succ _, this.2⟩
  · have e : opCodesTable rnd (14 * 4096) s = opCodeETable s.NN s := by
      simp [opCodesTable]
    rw [e] at h
    have := opCodeETable_frame _ s t h
    exact ⟨by rw [this.1]; exact Nat.le_succ _, fun h0 => by rw [this.2]; exact h0⟩
  · have e : opCodesTable rnd (15 * 4096) s = opCodeFTable s.NN s := by
      simp [opCodesTable]
    rw [e] at h
    have := opCodeFTable_frame _ s t h
    exact ⟨by rw [this.1]; exact Nat.le_succ _, fun h0 => by rw [this.2]; exact h0⟩
  · interval_cases T <;>
      first
      | omega
      | (simp [opCodesTable] at h
         subst h
         first
         | exact ⟨Nat.le_refl _, fun h0 => h0⟩
         | exact ⟨Nat.le_succ _, fun h0 => h0⟩)

theorem emulateCycle_frame (rnd : Nat) (s t : State) (h : emulateCycle rnd s = .ok t) :
    t.stack.length ≤ s.stack.length + 1 ∧ (DisplayOK s.display → DisplayOK t.display) := by
  unfold emulateCycle fetchOpcode at h
  split at h
  · rw [ok_bind] at h
    unfold decodeAndExecuteOpcode at h
    simp only [and_F000] at h
    have hf := opCodesTable_frame rnd _ (Nat.mod_lt _ (by decide)) _ t h
    exact hf
  · cases h

/-! ## `initialize` and the framebuffer -/

theorem resize_of_length (v : List Nat) (n value : Nat) (h : v.length = n) :
    resize v n value = v := by
  unfold resize
  rw [h, Nat.sub_self, ← h, List.take_length]
  simp

/-- A second `initialize` leaves an initialised framebuffer as it is. -/
theorem initialize_keeps_display (s : State) (h : s.display.length = c_displaySize) :
    (initializeChip8 s).display = s.display :=
  resize_of_length s.display c_displaySize 0 h

/-- C13, the code on the state reached by drawing D011 at (63, 0) with the row
0xFF: the cell 64 is on after the draw and still on after initialize, which
resizes the framebuffer without overwriting its cells. -/
theorem initialize_keeps_lit_cells :
    cellOf (emulateCycle 0 wrapState) 64 = some 0xFF ∧
    cellOf ((emulateCycle 0 wrapState).map initializeChip8) 64 = some 0xFF := by
  constructor <;> decide!

/-! ## `loadGame` -/

theorem loadGame_fold (bytes : List Nat) (s : State) (i : Nat)
    (h : i + bytes.length ≤ c_memorySize) :
    bytes.foldlM
      (fun (ti : State × Nat) (currentFileByte : Nat) =>
        if ti.2 < c_memorySize then
          Except.ok ({ ti.1 with memory := setAt ti.1.memory ti.2 (currentFileByte % 256) },
            ti.2 + 1)
        else Except.error Fault.outOfBounds) (s, i)
      = .ok ({ s with memory := loadedMemory s.memory i bytes }, i + bytes.length) := by
  induction bytes generalizing s i with
  | nil =>
    have e : loadedMemory s.memory i [] = s.memory := by
      funext a
      simp [loadedMemory]
    simp [e]
    rfl
  | cons b bs ih =>
    have hlen : (b :: bs).length = bs.length + 1 := rfl
    rw [hlen] at h
    have hi : i < c_memorySize := by omega
    rw [List.foldlM_cons]
    simp only [hi, if_true, ok_bind]
    rw [ih _ (i + 1) (by omega)]
    have e : loadedMemory (setAt s.memory i (b % 256)) (i + 1) bs
        = loadedMemory s.memory i (b :: bs) := by
      funext a
      unfold loadedMemory setAt
      rw [hlen]
      by_cases ha : a = i
      · subst ha
        simp
      · by_cases hb : i + 1 ≤ a ∧ a < i + 1 + bs.length
        · have e1 : a - i = (a - (i + 1)) + 1 := by omega
          rw [if_pos hb, if_pos (by omega), e1, List.getD_cons_succ]
        · rw [if_neg hb, if_neg ha, if_neg (by omega)]
    simp only [e]
    congr 2
    omega

/-- C15: for every byte sequence b of length N <= 3584 and every prior state,
load succeeds and reports success, memory[0x200 + k] = b[k] for all k < N, every
address below 0x200 or at or above 0x200 + N is unchanged, and no register,
timer, stack entry or framebuffer cell changes. -/
theorem load_places_image (s : State) (b : List Nat) (hb : ∀ x ∈ b, x < 256)
    (hN : b.length ≤ 3584) :
    ∃ t, loadGame (some b) s = .ok (t, true) ∧
      (∀ k, k < b.length → t.memory (0x200 + k) = b.getD k 0) ∧
      (∀ a, a < 0x200 ∨ 0x200 + b.length ≤ a → t.memory a = s.memory a) ∧
      t.V = s.V ∧ t.I = s.I ∧ t.PC = s.PC ∧ t.delayTimer = s.delayTimer ∧
      t.soundTimer = s.soundTimer ∧ t.stack = s.stack ∧ t.display = s.display ∧
      t.keys = s.keys ∧ t.drawFlag = s.drawFlag := by
  have hf := loadGame_fold b s 0x200 (by unfold c_memorySize; omega)
  refine ⟨{ s with memory := loadedMemory s.memory 0x200 b }, ?_, ?_, ?_,
    rfl, rfl, rfl, rfl, rfl, rfl, rfl, rfl, rfl⟩
  · unfold loadGame
    simp only [hf]
    rfl
  · intro k hk
    show loadedMemory s.memory 0x200 b (0x200 + k) = _
    unfold loadedMemory
    rw [if_pos (by omega), Nat.add_sub_cancel_left]
    apply Nat.mod_eq_of_lt
    apply hb
    rw [List.getD_eq_getElem _ _ hk]
    exact List.getElem_mem _
  · intro a ha
    show loadedMemory s.memory 0x200 b a = _
    unfold loadedMemory
    rw [if_neg (by omega)]

/-- Witness of C15: the two-byte image 22 00 loaded into the power-on state. -/
theorem load_places_image_witness :
    ∃ t, loadGame (some [0x22, 0x00]) powerOn = .ok (t, true) ∧
      (∀ k, k < [0x22, 0x00].length → t.memory (0x200 + k) = [0x22, 0x00].getD k 0) ∧
      (∀ a, a < 0x200 ∨ 0x200 + [0x22, 0x00].length ≤ a → t.memory a = powerOn.memory a) ∧
      t.V = powerOn.V ∧ t.I = powerOn.I ∧ t.PC = powerOn.PC ∧
      t.delayTimer = powerOn.delayTimer ∧ t.soundTimer = powerOn.soundTimer ∧
      t.stack = powerOn.stack ∧ t.display = powerOn.display ∧ t.keys = powerOn.keys ∧
      t.drawFlag = powerOn.drawFlag :=
  load_places_image powerOn [0x22, 0x00] (by decide) (by decide)

/-! ## Invariants of the reachable states -/

theorem loadGame_frame (file : Option (List Nat)) (s t : State) (ok : Bool)
    (h : loadGame file s = .ok (t, ok)) : t.stack = s.stack ∧ t.display = s.display := by
  unfold loadGame at h
  cases file with
  | none =>
    cases h
    exact ⟨rfl, rfl⟩
  | some bytes =>
    simp only [map_eq_ok] at h
    obtain ⟨u, hu, he⟩ := h
    have hinv := foldlM_invariant
      (fun (ti : State × Nat) => ti.1.stack = s.stack ∧ ti.1.display = s.display) _
      (by
        intro a x b ha hb
        split at hb
        · cases hb
          exact ha
        · cases hb) _ _ u ⟨rfl, rfl⟩ hu
    cases he
    exact hinv

theorem setKeys_frame (updatedKeys : List Bool) (s t : State)
    (h : setKeys updatedKeys s = .ok t) : t.stack = s.stack ∧ t.display = s.display := by
  unfold setKeys at h
  split at h
  · cases h
    exact ⟨rfl, rfl⟩
  · cases h

theorem updateTimers_frame (playSound : Bool) (s : State) :
    (updateTimers playSound s).1.stack = s.stack ∧
    (updateTimers playSound s).1.display = s.display := by
  unfold updateTimers
  by_cases hd : s.delayTimer > 0 <;> by_cases hs : s.soundTimer > 0 <;> simp [hd, hs]

theorem displayOK_fresh (s : State) (h : s.display = []) :
    DisplayOK (initializeChip8 s).display := by
  show DisplayOK (resize s.display c_displaySize 0)
  rw [h]
  unfold resize
  refine ⟨?_, ?_⟩
  · rw [List.length_append, List.length_replicate, List.length_take]
    rfl
  · intro px hpx
    left
    rw [List.take_nil, List.nil_append] at hpx
    exact List.eq_of_mem_replicate hpx

theorem reachable_invariants (n : Nat) (s : State) (h : ReachableIn n s) :
    s.stack.length ≤ n ∧ DisplayOK s.display := by
  induction h with
  | init s hd _ => exact ⟨Nat.le_refl _, displayOK_fresh s hd⟩
  | load n s t file ok _ hl ih =>
    have hf := loadGame_frame file s t ok hl
    rw [hf.1, hf.2]
    exact ih
  | keys n s t updatedKeys _ hk ih =>
    have hf := setKeys_frame updatedKeys s t hk
    rw [hf.1, hf.2]
    exact ih
  | cycle n rnd s t _ hc ih =>
    have hf := emulateCycle_frame rnd s t hc
    exact ⟨by omega, hf.2 ih.2⟩
  | tick n s playSound _ ih =>
    have hf := updateTimers_frame playSound s
    rw [hf.1, hf.2]
    exact ih

/-! ## The sprite draw stays inside the framebuffer; loads that overrun memory -/

theorem loadGame_callLoop :
    loadGame (some [0x22, 0x00]) powerOn = .ok (callLoopState, true) := rfl

theorem reachable_callLoopState : ReachableIn 0 callLoopState :=
  ReachableIn.load 0 powerOn callLoopState (some [0x22, 0x00]) true
    (ReachableIn.init _ rfl rfl) loadGame_callLoop

/-! ## 2NNN and the size of the stack -/

theorem emulateCycle_2NNN (rnd : Nat) (s : State) (NNN : Nat) (hN : NNN < 4096)
    (h : instrAt s (0x20 + NNN / 256) (NNN % 256)) :
    emulateCycle rnd s = .ok { fetched s (0x20 + NNN / 256) (NNN % 256) with
      stack := s.PC :: s.stack, PC := NNN } := by
  have hk : (0x20 + NNN / 256) / 16 * 4096 = 0x2000 := by omega
  have hn : (0x20 + NNN / 256) % 16 * 256 + NNN % 256 = NNN := by omega
  rw [step_of_instrAt rnd s _ _ h (by omega) (by omega), hk]
  simp [opCodesTable, fetched, hn]

theorem call_loop (n : Nat) :
    ∃ t, cycles 0 n callLoopState = .ok t ∧ ReachableIn n t ∧ t.stack.length = n ∧
      t.PC = 0x200 ∧ t.memory = callLoopState.memory := by
  induction n with
  | zero => exact ⟨callLoopState, rfl, reachable_callLoopState, rfl, rfl, rfl⟩
  | succ n ih =>
    obtain ⟨t, hc, hr, hlen, hpc, hmem⟩ := ih
    have hi : instrAt t (0x20 + 0x200 / 256) (0x200 % 256) := by
      refine ⟨?_, ?_, ?_⟩
      · rw [hpc]
        decide
      · rw [hpc, hmem]
        rfl
      · rw [hpc, hmem]
        rfl
    have he := emulateCycle_2NNN 0 t 0x200 (by decide) hi
    refine ⟨_, ?_, ReachableIn.cycle n 0 t _ hr he, ?_, rfl, hmem⟩
    · show (cycles 0 n callLoopState >>= emulateCycle 0) = _
      rw [hc, ok_bind, he]
    · show (t.PC :: t.stack).length = n + 1
      rw [List.length_cons, hlen]

/-- C19, as amended: in every state reachable from the initialised machine by
loads, key updates, timer ticks and n cycles, the call stack holds at most n
return addresses; and the code has no capacity check: 2NNN on a stack of any
size (16 included) succeeds and leaves one entry more, the address of the call
on top. -/
theorem call_stack_growth :
    (∀ n s, ReachableIn n s → s.stack.length ≤ n) ∧
    (∀ rnd s NNN, NNN < 4096 → instrAt s (0x20 + NNN / 256) (NNN % 256) →
      ∃ t, emulateCycle rnd s = .ok t ∧ t.stack = s.PC :: s.stack ∧
        t.stack.length = s.stack.length + 1 ∧ t.PC = NNN) :=
  ⟨fun n s h => (reachable_invariants n s h).1,
    fun rnd s NNN hN h => ⟨_, emulateCycle_2NNN rnd s NNN hN h, rfl, rfl, rfl⟩⟩

/-- Witness of C19 as amended: the power-on state with the image 22 00 loaded. -/
theorem call_stack_growth_witness :
    callLoopState.stack.length ≤ 0 ∧
    ∃ t, emulateCycle 0 callLoopState = .ok t ∧
      t.stack = callLoopState.PC :: callLoopState.stack ∧
      t.stack.length = callLoopState.stack.length + 1 ∧ t.PC = 0x200 :=
  ⟨call_stack_growth.1 0 callLoopState reachable_callLoopState,
    call_stack_growth.2 0 callLoopState 0x200 (by decide)
      (instrAt_withInstr powerOn 0x22 0x00 (by decide))⟩

/-- C19 as stated fails: the image 22 00 (call 0x200) loaded into the
initialised machine and run for 17 cycles reaches a state with 17 return
addresses on the stack. -/
theorem call_stack_exceeds_16 :
    loadGame (some [0x22, 0x00]) powerOn = .ok (callLoopState, true) ∧
    stackSizeOf (cycles 0 17 callLoopState) = some 17 ∧
    ∃ t, cycles 0 17 callLoopState = .ok t ∧ ReachableIn 17 t ∧ t.stack.length = 17 ∧
      ¬ t.stack.length ≤ 16 := by
  obtain ⟨t, hc, hr, hlen, -, -⟩ := call_loop 17
  refine ⟨loadGame_callLoop, ?_, t, hc, hr, hlen, by omega⟩
  rw [hc]
  show some t.stack.length = some 17
  rw [hlen]

/-! ## DXYN against the linear-index reference; call and return -/

theorem pixelPos_eq (vx vy r c : Nat) :
    pixelPos vx vy r c = (vx + 64 * (vy + r) + c) % 2048 := by
  unfold pixelPos c_displaySize c_displayWidth c_displayHeight
  congr 1
  omega

theorem xor_FF_ne (x : Nat) : x ^^^ 0xFF ≠ x := by
  intro h
  have h0 := congrArg (fun n => Nat.testBit n 0) h
  simp only [Nat.testBit_xor] at h0
  have h1 : Nat.testBit 0xFF 0 = true := by decide
  rw [h1] at h0
  cases hb : x.testBit 0 <;> simp [hb] at h0

theorem linearTarget_iff (s : State) (X Y N p : Nat) :
    linearTarget s X Y N p ↔ p ∈ spriteHits s.memory s.I (s.V X) (s.V Y) N := by
  rw [mem_spriteHits]
  constructor
  · rintro ⟨r, c, hr, hc, hb, e⟩
    exact ⟨r, c, hr, hc, (spriteBit_iff _ _ hc).mpr hb, by rw [pixelPos_eq]; exact e⟩
  · rintro ⟨r, c, hr, hc, hb, e⟩
    exact ⟨r, c, hr, hc, (spriteBit_iff _ _ hc).mp hb, by rw [← pixelPos_eq]; exact e⟩

/-- C21: for every DXYN with X != 0xF, Y != 0xF and I + N <= 4096 (on a
framebuffer of 2048 cells), after one cycle the cell at index p has been toggled
(XOR 0xFF, so 0 becomes 0xFF and 0xFF becomes 0) if and only if there are r < N
and c < 8 with bit 7 - c of memory[I + r] set and
p = (Vx + 64*(Vy + r) + c) mod 2048, and every other cell is unchanged; no two
pairs (r, c) hit the same cell; memory, I and V0..VE are unchanged, the
draw-needed flag is true and PC has advanced by 2. -/
theorem draw_linear_reference (rnd : Nat) (s : State) (X Y N : Nat) (hX : X < 15)
    (hY : Y < 15) (hN : N < 16) (h : instrAt s (0xD0 + X) (Y * 16 + N))
    (hI : s.I + N ≤ 4096) (hd : s.display.length = 2048) :
    ∃ t, emulateCycle rnd s = .ok t ∧
      (∀ p, t.display.getD p 0 = s.display.getD p 0 ^^^ 0xFF ↔ linearTarget s X Y N p) ∧
      (∀ p, linearTarget s X Y N p →
        (s.display.getD p 0 = 0 → t.display.getD p 0 = 0xFF) ∧
        (s.display.getD p 0 = 0xFF → t.display.getD p 0 = 0)) ∧
      (∀ p, ¬ linearTarget s X Y N p → t.display.getD p 0 = s.display.getD p 0) ∧
      t.display.length = 2048 ∧
      (∀ r c r2 c2, r < N → c < 8 → r2 < N → c2 < 8 →
        (s.V X + 64 * (s.V Y + r) + c) % 2048 = (s.V X + 64 * (s.V Y + r2) + c2) % 2048 →
        r = r2 ∧ c = c2) ∧
      t.memory = s.memory ∧ t.I = s.I ∧ (∀ i, i < 15 → t.V i = s.V i) ∧
      t.drawFlag = true ∧ t.PC = s.PC + 2 := by
  have hpos : ∀ p, linearTarget s X Y N p →
      (afterDraw s (0xD0 + X) (Y * 16 + N)
        (drawn s.memory s.I s.display (s.V X) (s.V Y) N)).display.getD p 0
      = s.display.getD p 0 ^^^ 0xFF := by
    intro p hp
    show (drawn s.memory s.I s.display (s.V X) (s.V Y) N).1.getD p 0 = _
    rw [drawn_getD _ _ _ _ _ _ (by omega) hd, if_pos ((linearTarget_iff s X Y N p).mp hp)]
  have hneg : ∀ p, ¬ linearTarget s X Y N p →
      (afterDraw s (0xD0 + X) (Y * 16 + N)
        (drawn s.memory s.I s.display (s.V X) (s.V Y) N)).display.getD p 0
      = s.display.getD p 0 := by
    intro p hp
    show (drawn s.memory s.I s.display (s.V X) (s.V Y) N).1.getD p 0 = _
    rw [drawn_getD _ _ _ _ _ _ (by omega) hd,
      if_neg (fun hm => hp ((linearTarget_iff s X Y N p).mpr hm))]
  refine ⟨_, emulateCycle_DXYN rnd s X Y N hX hY hN h hI hd, ?_, ?_, hneg, ?_, ?_,
    rfl, rfl, ?_, rfl, rfl⟩
  · intro p
    constructor
    · intro e
      by_contra hp
      rw [hneg p hp] at e
      exact xor_FF_ne _ e.symm
    · exact hpos p
  · intro p hp
    rw [hpos p hp]
    constructor
    · intro e
      rw [e]
      rfl
    · intro e
      rw [e]
      rfl
  · show (drawn s.memory s.I s.display (s.V X) (s.V Y) N).1.length = 2048
    rw [drawn_length]
    exact hd
  · intro r c r2 c2 hr hc hr2 hc2 e
    omega
  · intro i hi
    exact afterDraw_V s _ _ _ i (by omega)

/-- Witness of C21: D011 at (63, 0) with the row 0xFF on a blank framebuffer. -/
theorem draw_linear_reference_witness :
    ∃ t, emulateCycle 0 wrapState = .ok t ∧
      (∀ p, t.display.getD p 0 = wrapState.display.getD p 0 ^^^ 0xFF
        ↔ linearTarget wrapState 0 1 1 p) ∧
      (∀ p, linearTarget wrapState 0 1 1 p →
        (wrapState.display.getD p 0 = 0 → t.display.getD p 0 = 0xFF) ∧
        (wrapState.display.getD p 0 = 0xFF → t.display.getD p 0 = 0)) ∧
      (∀ p, ¬ linearTarget wrapState 0 1 1 p →
        t.display.getD p 0 = wrapState.display.getD p 0) ∧
      t.display.length = 2048 ∧
      (∀ r c r2 c2, r < 1 → c < 8 → r2 < 1 → c2 < 8 →
        (wrapState.V 0 + 64 * (wrapState.V 1 + r) + c) % 2048
          = (wrapState.V 0 + 64 * (wrapState.V 1 + r2) + c2) % 2048 →
        r = r2 ∧ c = c2) ∧
      t.memory = wrapState.memory ∧ t.I = wrapState.I ∧
      (∀ i, i < 15 → t.V i = wrapState.V i) ∧
      t.drawFlag = true ∧ t.PC = wrapState.PC + 2 :=
  draw_linear_reference 0 wrapState 0 1 1 (by decide) (by decide) (by decide)
    (instrAt_drawState _ _ _ _ _) (by decide) (drawState_display_length _ _ _ _ _)

/-- C22: for every state whose instruction at PC = p is 2NNN with NNN <= 4094
and the bytes 00, EE at NNN, NNN + 1, the first cycle pushes p and sets
PC = NNN, and the second cycle leaves PC = p + 2 and the stack as it was before
the call; V, I, memory, timers and framebuffer are unchanged across the two
cycles. -/
theorem call_then_return (rnd1 rnd2 : Nat) (s : State) (NNN : Nat) (hN : NNN ≤ 4094)
    (h : instrAt s (0x20 + NNN / 256) (NNN % 256))
    (hret : s.memory NNN = 0x00 ∧ s.memory (NNN + 1) = 0xEE) :
    ∃ t u, emulateCycle rnd1 s = .ok t ∧ t.stack = s.PC :: s.stack ∧ t.PC = NNN ∧
      emulateCycle rnd2 t = .ok u ∧ u.PC = s.PC + 2 ∧ u.stack = s.stack ∧
      t.V = s.V ∧ t.I = s.I ∧ t.memory = s.memory ∧ t.delayTimer = s.delayTimer ∧
      t.soundTimer = s.soundTimer ∧ t.display = s.display ∧
      u.V = s.V ∧ u.I = s.I ∧ u.memory = s.memory ∧ u.delayTimer = s.delayTimer ∧
      u.soundTimer = s.soundTimer ∧ u.display = s.display := by
  have hpc := instrAt_PC h
  have e1 := emulateCycle_2NNN rnd1 s NNN (by omega) h
  have hi2 : instrAt { fetched s (0x20 + NNN / 256) (NNN % 256) with
      stack := s.PC :: s.stack, PC := NNN } 0x00 0xEE :=
    ⟨by show NNN + 1 < c_memorySize; unfold c_memorySize; omega, hret.1, hret.2⟩
  have e2 := emulateCycle_00EE rnd2 _ s.PC s.stack hi2 rfl
  have e3 : (s.PC + 2) % 65536 = s.PC + 2 := by omega
  refine ⟨_, _, e1, rfl, rfl, e2, e3, rfl, rfl, rfl, rfl, rfl, rfl, rfl, rfl, rfl, rfl,
    rfl, rfl, rfl⟩

theorem instrAt_callReturnState : instrAt callReturnState (0x20 + 0x300 / 256) (0x300 % 256) :=
  ⟨by decide, rfl, rfl⟩

/-- Witness of C22: 23 00 at 0x200 and 00 EE at 0x300 in the power-on state. -/
theorem call_then_return_witness :
    ∃ t u, emulateCycle 0 callReturnState = .ok t ∧
      t.stack = callReturnState.PC :: callReturnState.stack ∧ t.PC = 0x300 ∧
      emulateCycle 0 t = .ok u ∧ u.PC = callReturnState.PC + 2 ∧
      u.stack = callReturnState.stack ∧
      t.V = callReturnState.V ∧ t.I = callReturnState.I ∧
      t.memory = callReturnState.memory ∧ t.delayTimer = callReturnState.delayTimer ∧
      t.soundTimer = callReturnState.soundTimer ∧ t.display = callReturnState.display ∧
      u.V = callReturnState.V ∧ u.I = callReturnState.I ∧
      u.memory = callReturnState.memory ∧ u.delayTimer = callReturnState.delayTimer ∧
      u.soundTimer = callReturnState.soundTimer ∧ u.display = callReturnState.display :=
  call_then_return 0 0 callReturnState 0x300 (by decide) instrAt_callReturnState
    ⟨rfl, rfl⟩

end Chip8
